import Mathlib

/-!
Verification of the ARM64 assembly simulator (assembler/resolver + execution
engine) against its natural-language specification.

The definitions below are a shallow embedding of the JavaScript source
(`ARM64Simulator` class and `ARM64Parser` class).  JavaScript `BigInt`
register/memory values are modelled as `Int` (arbitrary precision, possibly
negative — the source never masks on store for 64-bit destinations, and this
embedding preserves that).  `BigInt` bitwise-AND with a mask `2^k - 1` is
two's-complement truncation, i.e. `Int.emod · (2^k)`; the JavaScript `%`
operator on `BigInt` is truncated remainder, i.e. `Int.tmod`.  Nonnegative
bit-level quantities are moved into `Nat` and manipulated with `Nat` bitwise
operations.
-/

namespace Arm64

/-! ## Register file (source: `reset`, `getRegisterValue`, `setRegisterValue`) -/

/-- A parsed register operand: `parseRegister` returns the strings
`"sp"`/`"lr"`/`"pc"` for the special registers and an object
`{type: 'x'|'w', num}` for general-purpose registers `x0..x30`/`w0..w30`.
`isW = true` is the `'w'` (lower-32-bit) view. -/
inductive Reg where
  | gp (isW : Bool) (num : Fin 31)
  | sp
  | lr
  | pc
deriving DecidableEq, Repr

/-- The register state: `registers.x0 .. x30`, `registers.sp`, `registers.pc`
(all JavaScript `BigInt`, hence `Int`).  `lr` is not a separate cell: the
source reads and writes `x30` for it. -/
structure RegFile where
  x : Fin 31 → Int
  sp : Int
  pc : Int

/-- Source `getRegisterValue(reg)`: an `x` view returns the raw cell; a `w`
view takes the low 32 bits (`xValue & 0xFFFFFFFFn`) and sign-extends bit 31
(`lower32 | 0xFFFFFFFF00000000n`); `sp`/`pc` return their cells and `lr`
returns `x30`. -/
def getRegisterValue (r : RegFile) : Reg → Int
  | .sp => r.sp
  | .pc => r.pc
  | .lr => r.x 30
  | .gp false n => r.x n
  | .gp true n =>
    let lower32 : Nat := ((r.x n).emod 0x100000000).toNat
    if lower32 &&& 0x80000000 ≠ 0 then
      ((lower32 ||| 0xFFFFFFFF00000000 : Nat) : Int)
    else (lower32 : Int)

/-- Source `setRegisterValue(reg, value)`: an `x` view stores the raw value;
a `w` view stores `value & 0xFFFFFFFFn` (upper bits zero); `lr` writes `x30`.
(The `changedRegisters` display bookkeeping is not modelled.) -/
def setRegisterValue (r : RegFile) (reg : Reg) (value : Int) : RegFile :=
  match reg with
  | .sp => { r with sp := value }
  | .pc => { r with pc := value }
  | .lr => { r with x := Function.update r.x 30 value }
  | .gp false n => { r with x := Function.update r.x n value }
  | .gp true n => { r with x := Function.update r.x n (value.emod 0x100000000) }

/-- NZCV condition flags. -/
structure Flags where
  N : Bool
  Z : Bool
  C : Bool
  V : Bool
deriving DecidableEq, Repr

/-! ## Memory subsystem (source: `reset` layout, `getMemoryRegion`,
`validateMemoryAccess`, `writeMemory`, `readMemory`) -/

/-- One row of `this.memoryLayout` (field `end` is a Lean keyword, so it is
called `endAddr` here; `start` likewise becomes `startAddr`). -/
structure Region where
  key : String
  startAddr : Int
  endAddr : Int
  readonly : Bool
deriving DecidableEq, Repr

/-- The fixed layout set in `reset()`, in `Object.entries` order. -/
def memoryLayout : List Region :=
  [ { key := "rodata", startAddr := 0x00100000, endAddr := 0x001FFFFF, readonly := true },
    { key := "data",   startAddr := 0x00200000, endAddr := 0x002FFFFF, readonly := false },
    { key := "bss",    startAddr := 0x00300000, endAddr := 0x003FFFFF, readonly := false },
    { key := "heap",   startAddr := 0x00400000, endAddr := 0x07FEFFFF, readonly := false },
    { key := "stack",  startAddr := 0x07FF0000, endAddr := 0x07FFFFFF, readonly := false } ]

/-- Source `getMemoryRegion(address)`: first region with
`start <= addr <= end`. -/
def getMemoryRegion (addr : Int) : Option Region :=
  memoryLayout.find? (fun r => r.startAddr ≤ addr ∧ addr ≤ r.endAddr)

/-- The sparse byte store `this.memory` (a JavaScript `Map` from address to
byte).  Keys prepended on `set`; `lookup` returns the most recent binding. -/
def MemMap : Type := List (Int × Nat)

/-- `this.memory.get(a)` (`none` = never written). -/
def memGet (m : MemMap) (a : Int) : Option Nat :=
  List.lookup a m

/-- `this.memory.set(a, b)`. -/
def memSet (m : MemMap) (a : Int) (b : Nat) : MemMap :=
  (a, b) :: m

/-- Source `validateMemoryAccess(address, size, isWrite)`.  `sp` is
`this.registers.sp`, read by the stack/heap collision check.  Checks appear
in source order; a `throw` is an `Except.error` carrying a short tag of the
message. -/
def validateMemoryAccess (sp : Int) (addr : Int) (size : Nat) (isWrite : Bool) :
    Except String Region :=
  -- Check zero page access
  if addr = 0 ∨ (addr < 0x00100000 ∧ addr > 0) then
    .error "zero page access forbidden"
  -- Check bounds
  else if addr < 0x00100000 ∨ addr + ((size : Int) - 1) > 0x07FFFFFF then
    .error "memory access out of bounds"
  else
    -- (unaligned accesses only produce a console warning in the source)
    match getMemoryRegion addr with
    | none => .error "address not in any memory region"
    | some region =>
      -- Check if all bytes are in the same region
      if addr + ((size : Int) - 1) > region.endAddr then
        .error "memory access crosses region boundary"
      -- Check read-only
      else if isWrite ∧ region.readonly then
        .error "write to read-only region"
      -- Check stack/heap collision (both blocks of the source; note that
      -- `sp >= stack.start > heap.end` makes them unreachable)
      else if isWrite ∧ 0x07FF0000 ≤ sp ∧ sp < 0x07FFFFFF ∧
          0x00400000 ≤ addr ∧ addr ≤ 0x07FEFFFF ∧ sp < 0x07FEFFFF then
        .error "stack-heap collision detected"
      else if isWrite ∧ 0x00400000 ≤ addr ∧ addr ≤ 0x07FEFFFF ∧
          sp < 0x07FEFFFF ∧ 0x07FF0000 ≤ sp then
        .error "stack-heap collision detected again"
      else
        .ok region

/-- The byte-store loop at the end of `writeMemory`: little-endian, one byte
per address, `(value >> 8*i) & 0xFF` — for `Int` values this is
`(value.emod 2^64 … )` bit extraction; `BigInt` arithmetic shift plus the
`0xFF` mask equals `(v >>> 8*i) % 256` on the two's-complement image. -/
def writeBytes (m : MemMap) (addr : Int) (value : Int) : Nat → MemMap
  | 0 => m
  | Nat.succ i =>
    -- bytes are stored in loop order i = 0, 1, …, size-1
    memSet (writeBytes m addr value i) (addr + i)
      (((value.emod (2 ^ (8 * (i + 1)))).toNat >>> (8 * i)) &&& 0xFF)

/-- Source `writeMemory(address, value, size, skipReadonlyCheck)`.  Returns
the outcome together with the resulting byte store; on a thrown validation
error the store is returned untouched (the source throws before its store
loop, so no partial write can occur). -/
def writeMemory (m : MemMap) (sp : Int) (addr : Int) (value : Int) (size : Nat)
    (skipReadonlyCheck : Bool) : Except String Unit × MemMap :=
  if skipReadonlyCheck = false then
    match validateMemoryAccess sp addr size true with
    | .error e => (.error e, m)
    | .ok _ => (.ok (), writeBytes m addr value size)
  else
    -- Still validate bounds and other checks, but skip readonly
    if addr = 0 ∨ (addr < 0x00100000 ∧ addr > 0) then
      (.error "zero page access forbidden", m)
    else if addr < 0x00100000 ∨ addr + ((size : Int) - 1) > 0x07FFFFFF then
      (.error "memory access out of bounds", m)
    else
      match getMemoryRegion addr with
      | none => (.error "memory access to unmapped region", m)
      | some region =>
        if addr + ((size : Int) - 1) > region.endAddr then
          (.error "memory access crosses region boundary", m)
        else
          (.ok (), writeBytes m addr value size)

/-- The byte-gather loop of `readMemory`:
`value |= BigInt(byte) << BigInt(i*8)` with `byte = memory.get(addr+i) || 0`,
for `i = 0 … size-1`. -/
def readBytes (m : MemMap) (addr : Int) : Nat → Nat
  | 0 => 0
  | Nat.succ i => readBytes m addr i ||| (((memGet m (addr + i)).getD 0) <<< (8 * i))

/-- Source `readMemory(address, size)`: validate (as a read), gather bytes
little-endian, and sign-extend a 4-byte read whose bit 31 is set. -/
def readMemory (m : MemMap) (sp : Int) (addr : Int) (size : Nat) :
    Except String Int :=
  match validateMemoryAccess sp addr size false with
  | .error e => .error e
  | .ok _ =>
    let value : Nat := readBytes m addr size
    if size = 4 ∧ value &&& 0x80000000 ≠ 0 then
      .ok ((value ||| 0xFFFFFFFF00000000 : Nat) : Int)
    else
      .ok (value : Int)

/-- Source `reset()`: `initialSp = (STACK_END + 1n) & ~0xFn` with
`STACK_END = 0x07FFFFFFn`.  For a nonnegative `BigInt`, `& ~0xFn` clears the
low four bits, i.e. subtracts `x % 16`. -/
def initialSp : Int :=
  let stackEndPlusOne : Int := 0x07FFFFFF + 1
  stackEndPlusOne - stackEndPlusOne.tmod 16

/-! ## MOV immediate encodability (source: `countBits`,
`isMovImmediateEncodable`, `executeMov`) -/

/-- Loop body of `countBits`, with an explicit fuel bound (the loop halves
the value each iteration, so `value` itself bounds the iteration count). -/
def countBitsAux : Nat → Nat → Nat
  | _, 0 => 0
  | 0, _ + 1 => 0
  | fuel + 1, n + 1 =>
    (if (n + 1) &&& 1 ≠ 0 then 1 else 0) + countBitsAux fuel ((n + 1) / 2)

/-- Source `countBits(n)`: population count of a nonnegative `BigInt`,
computed by testing the low bit and shifting right (`val >> 1n`,
i.e. halving). -/
def countBits (value : Nat) : Nat := countBitsAux value value

/-- The shift lists of `isMovImmediateEncodable`. -/
def movShifts (is64Bit : Bool) : List Nat :=
  if is64Bit then [0, 16, 32, 48] else [0, 16]

/-- The width mask (`mask64`/`mask32`) as a `Nat`. -/
def movMask (is64Bit : Bool) : Nat :=
  if is64Bit then 0xFFFFFFFFFFFFFFFF else 0xFFFFFFFF

/-- The inner `for (const checkShift of shifts)` chunk test of the MOVN
branch: at the candidate shift position the chunk must equal `~extracted`
and (the layered patch) must be rejected if it has fewer than 16 set bits
while nonzero; at every other position the chunk must be all ones.
`u` is `unsignedValue`. -/
def movnChunkOk (u : Nat) (mask : Nat) (shift : Nat) (extracted : Nat)
    (checkShift : Nat) : Bool :=
  let checkMask := (0xFFFF <<< checkShift) &&& mask
  let chunkValue := (u &&& checkMask) >>> checkShift
  if checkShift = shift then
    let expectedChunk := (0xFFFF ^^^ extracted) &&& 0xFFFF  -- (~extracted) & 0xFFFF
    if chunkValue ≠ expectedChunk then false
    else if chunkValue ≠ 0xFFFF then
      -- reject when the chunk uses fewer than 16 bits (countBits patch)
      ¬(countBits chunkValue < 16 ∧ chunkValue ≠ 0)
    else true
  else
    chunkValue = 0xFFFF

/-- The per-shift MOVZ test of the first `for` loop of
`isMovImmediateEncodable`: only the chunk at `shift` holds bits, and holds at
least one. -/
def movzCheck (u mask : Nat) (shift : Nat) : Bool :=
  let shiftedMask := (0xFFFF <<< shift) &&& mask
  let extracted := (u &&& shiftedMask) >>> shift
  let otherBits := u &&& (mask ^^^ shiftedMask)
  otherBits = 0 ∧ extracted ≤ 0xFFFF ∧ extracted > 0

/-- The per-shift MOVN test of the second `for` loop: `~value` confined to
the chunk at `shift`, the reconstruction checks, and the inner
chunk-pattern loop. -/
def movnCheck (u mask : Nat) (shifts : List Nat) (shift : Nat) : Bool :=
  let notValue := mask ^^^ u  -- (~unsignedValue) & mask
  let shiftedMask := (0xFFFF <<< shift) &&& mask
  let extracted := (notValue &&& shiftedMask) >>> shift
  let otherBits := notValue &&& (mask ^^^ shiftedMask)
  if otherBits = 0 ∧ extracted ≤ 0xFFFF ∧ extracted > 0 then
    let reconstructed := (extracted <<< shift) &&& mask
    let originalReconstructed := mask ^^^ reconstructed  -- (~reconstructed) & mask
    if reconstructed = notValue ∧ originalReconstructed = u then
      shifts.all (movnChunkOk u mask shift extracted)
    else false
  else false

/-- Source `isMovImmediateEncodable(value, is64Bit)`.  `value` is a `BigInt`;
the function first truncates it to the width (`value & mask`), so the body
works on the `Nat` image `u`.  JavaScript `~x & mask` on a value `x ≤ mask`
is `mask ^^^ x`, and `x & ~y` for `y ⊆ mask` is `x &&& (mask ^^^ y)`. -/
def isMovImmediateEncodable (value : Int) (is64Bit : Bool) : Bool :=
  let mask := movMask is64Bit
  let u : Nat := (value.emod ((mask : Int) + 1)).toNat  -- value & mask
  let shifts := movShifts is64Bit
  -- MOVZ pattern: bits set in exactly one 16-bit aligned chunk
  if shifts.any (movzCheck u mask) then true
  -- MOVN pattern: ~value has bits set in exactly one chunk, plus the
  -- layered reconstruction / chunk-pattern checks
  else shifts.any (movnCheck u mask shifts)

/-- The MOVZ half of the rule the source actually implements: the width
image is nonzero and confined to one allowed 16-bit chunk. -/
def movzFormNonzero (u : Nat) (is64Bit : Bool) : Bool :=
  (movShifts is64Bit).any (fun shift =>
    u % 2 ^ shift = 0 ∧ u / 2 ^ shift ≤ 0xFFFF ∧ u ≠ 0)

/-- The MOVN half of the rule the source actually implements: the width
image is the complement of a *full* `0xFFFF` chunk (one chunk all-zero, all
other bits one) — a strict subset of the architectural MOVN forms. -/
def movnFullChunk (u : Nat) (is64Bit : Bool) : Bool :=
  (movShifts is64Bit).any (fun shift =>
    u = movMask is64Bit ^^^ (0xFFFF <<< shift))

/-- The spec's encodability rule, written from the specification text (the
source's "intended rule", which §9 of the spec declares normative): the
width image of the immediate must be a 16-bit value placed at one of the
allowed shifts with all other bits zero (MOVZ), or the bitwise complement of
such a pattern (MOVN). -/
def movImmediateEncodableSpec (value : Int) (is64Bit : Bool) : Bool :=
  let mask := movMask is64Bit
  let u : Nat := (value.emod ((mask : Int) + 1)).toNat
  let shifts := movShifts is64Bit
  let isShifted16 := fun (v : Nat) =>
    shifts.any (fun shift => v % 2 ^ shift = 0 ∧ v / 2 ^ shift ≤ 0xFFFF)
  isShifted16 u ∨ isShifted16 (mask ^^^ u)

/-- Proof helper: the 16-bit chunk of `u` at bit offset `cs`. -/
def chunkOf (u cs : Nat) : Nat :=
  u / 2 ^ cs % 2 ^ 16

/-- The width flag of `executeMov`: `is64Bit` is `dest.type !== 'w'`. -/
def movIs64ForDest (dest : Reg) : Bool :=
  match dest with
  | .gp true _ => false
  | _ => true

/-- Source `executeMov`, immediate path, restricted to a general-purpose
destination (the value stored in the destination cell).  After the
encodability gate a `w` destination stores the 32-bit image zero-extended
(`(int32 << 0) >> 0` then `>>> 0` round-trips the masked 32-bit value, and
`setRegisterValue` re-masks), an `x` destination stores the 64-bit image. -/
def executeMovImmediate (r : RegFile) (dest : Reg) (imm : Int) :
    Except String RegFile :=
  let is64Bit := movIs64ForDest dest
  let mask : Int := (movMask is64Bit : Nat)
  let value := imm.emod (mask + 1)  -- value & mask (both sign branches)
  if ¬ isMovImmediateEncodable value is64Bit then
    .error "MOV immediate value cannot be encoded using MOVZ/MOVN"
  else
    .ok (setRegisterValue r dest value)

/-! ## Execution-engine state (source: `reset`, `loadProgram`) -/

/-- A symbol-table entry (`symbolTable.set(name, {address, section, type,
isGlobal})`; `section` is a Lean keyword, so the field is `sec`). -/
structure LabelInfo where
  address : Int
  sec : String
  type : String
  isGlobal : Bool
deriving DecidableEq, Repr

/-- A stack-frame record (`{id, sp, size, top}` from `createStackFrame`). -/
structure Frame where
  id : Nat
  sp : Int
  size : Int
  top : Int
deriving DecidableEq, Repr

/-- An entry of `this.instructions` as used by the execution engine; only the
`address` field is read by the control-flow operations modelled here (the
`original` text and `parsed` record are not consulted by `executeRet` or
`findInstructionIndexByAddress`). -/
structure Instr where
  address : Int
deriving DecidableEq, Repr

/-- The simulator state fields touched by the embedded operations. -/
structure SimState where
  regs : RegFile
  flags : Flags
  memory : MemMap
  symbolTable : List (String × LabelInfo)
  stackFrames : List Frame
  nextFrameId : Nat
  instructions : List Instr
  currentInstructionIndex : Nat
  entryPointAddress : Int
  entryPointLabel : Option String
  entryFunctionEndIndex : Int

/-! ## Stack frames (source: `createStackFrame`, `destroyStackFrame`) -/

/-- One step of a stable descending insertion by `sp`; `sortFramesDesc`
reproduces the JavaScript stable `sort((a, b) => b.sp - a.sp)`. -/
def insertFrameDesc (f : Frame) : List Frame → List Frame
  | [] => [f]
  | g :: t => if f.sp < g.sp then g :: insertFrameDesc f t else f :: g :: t

/-- Stable sort, descending by `sp` (ties keep their original order, as
JavaScript `Array.prototype.sort` guarantees). -/
def sortFramesDesc (l : List Frame) : List Frame :=
  l.foldr insertFrameDesc []

/-- Source `createStackFrame(newSP, size)`: push `{id, sp, size, top}`, then
sort the array descending by `sp`. -/
def createStackFrame (s : SimState) (newSP : Int) (size : Int) : SimState :=
  let frame : Frame :=
    { id := s.nextFrameId, sp := newSP, size := size, top := newSP + size }
  { s with
    nextFrameId := s.nextFrameId + 1,
    stackFrames := sortFramesDesc (s.stackFrames ++ [frame]) }

/-- Source `destroyStackFrame(newSP, size)`: remove the first frame matching
`sp = newSP - size` and `size` exactly; otherwise sort descending and remove
the leading element (the source's `shift()`), if any. -/
def destroyStackFrame (s : SimState) (newSP : Int) (size : Int) : SimState :=
  let frameToFree := newSP - size
  match s.stackFrames.findIdx? (fun f => f.sp = frameToFree ∧ f.size = size) with
  | some i => { s with stackFrames := s.stackFrames.eraseIdx i }
  | none => { s with stackFrames := (sortFramesDesc s.stackFrames).tail }

/-! ## Arithmetic (source: `executeAdd`, `executeSub`, `updateFlags`,
`executeArithmeticWithFlags`) -/

/-- Operands of an arithmetic instruction as produced by `parseInstruction`
(`dest`, `src1`, `src2`, `immediate`, plus the `:lo12:` label form). -/
structure ArithOperands where
  dest : Option Reg
  src1 : Option Reg
  src2 : Option Reg
  immediate : Option Int
  label : Option String
  labelOp : Option String
deriving DecidableEq, Repr

/-- `'add'` or `'sub'` (the `operation` string argument of
`executeArithmeticWithFlags`). -/
inductive ArithOp where
  | add
  | sub
deriving DecidableEq, Repr

/-- Source `updateFlags(result, size)`: sets N from the sign bit and Z from
the masked result; C and V are left untouched. -/
def updateFlags (f : Flags) (result : Int) (size : Nat) : Flags :=
  { f with
    N := (result.emod (2 ^ size)).toNat.testBit (size - 1)
    Z := result.emod (2 ^ size) = 0 }

/-- The second-operand resolution shared by `executeSub` and
`executeArithmeticWithFlags`: the immediate if present, else the value of
`src2`. -/
def arithVal2 (s : SimState) (p : ArithOperands) : Option Int :=
  match p.immediate with
  | some i => some i
  | none => p.src2.map (getRegisterValue s.regs)

/-- Source `executeAdd(parsed)`: no flags.  Second operand is the immediate,
else the low 12 bits of a `:lo12:` label address, else `src2`; with none of
those the source silently returns.  An `sp` destination is the stack
operation (multiple-of-16 and alignment checks, then `destroyStackFrame`);
any other destination stores the *unmasked* `val1 + val2`. -/
def executeAdd (s : SimState) (p : ArithOperands) : Except String SimState :=
  match p.dest, p.src1 with
  | some dest, some src1 =>
    let val1 := getRegisterValue s.regs src1
    let val2? : Except String (Option Int) :=
      match p.immediate with
      | some i => .ok (some i)
      | none =>
        match p.labelOp, p.label with
        | some "lo12", some lab =>
          match List.lookup lab s.symbolTable with
          | none => .error "label not found for lo12"
          | some info => .ok (some (info.address.emod 0x1000))  -- labelAddr & 0xFFFn
        | _, _ => .ok (p.src2.map (getRegisterValue s.regs))
    match val2? with
    | .error e => .error e
    | .ok none => .ok s  -- bare `return`
    | .ok (some val2) =>
      if dest = Reg.sp then
        if val2.tmod 16 ≠ 0 then
          .error "stack operations must use multiples of 16"
        else
          let newSP := val1 + val2
          if newSP.tmod 16 ≠ 0 then
            .error "stack pointer must remain 16-byte aligned"
          else
            .ok (destroyStackFrame
              { s with regs := setRegisterValue s.regs dest newSP } newSP val2)
      else
        .ok { s with regs := setRegisterValue s.regs dest (val1 + val2) }
  | _, _ => .error "invalid add instruction"

/-- Source `executeSub(parsed, setFlags)`: like `executeAdd` (without the
`:lo12:` form, and a missing second operand throws), with the extra
stack-overflow check `newSP < 0n`, `createStackFrame` on the `sp` path, and
`updateFlags` (N/Z only) when `setFlags` — the dispatcher only ever passes
`setFlags = false`, since `subs` is routed to `executeArithmeticWithFlags`. -/
def executeSub (s : SimState) (p : ArithOperands) (setFlags : Bool) :
    Except String SimState :=
  match p.dest, p.src1 with
  | some dest, some src1 =>
    let val1 := getRegisterValue s.regs src1
    match arithVal2 s p with
    | none => .error "invalid sub instruction: missing second operand"
    | some val2 =>
      if dest = Reg.sp then
        if val2.tmod 16 ≠ 0 then
          .error "stack operations must use multiples of 16"
        else
          let newSP := val1 - val2
          if newSP.tmod 16 ≠ 0 then
            .error "stack pointer must remain 16-byte aligned"
          else if newSP < 0 then
            .error "stack overflow"
          else
            .ok (createStackFrame
              { s with regs := setRegisterValue s.regs dest newSP } newSP val2)
      else
        let result := val1 - val2
        let s' := { s with regs := setRegisterValue s.regs dest result }
        if setFlags then
          let size := match dest with
            | .gp true _ => 32
            | _ => 64
          .ok { s' with flags := updateFlags s'.flags result size }
        else
          .ok s'
  | _, _ => .error "invalid sub instruction"

/-- `size = (parsed.src1 && parsed.src1.type === 'w') ? 32 : 64`. -/
def arithSize (src1 : Reg) : Nat :=
  match src1 with
  | .gp true _ => 32
  | _ => 64

/-- `val & mask` for the width mask `2^size - 1`, as a `Nat`. -/
def maskedNat (v : Int) (size : Nat) : Nat :=
  (v.emod (2 ^ size)).toNat

/-- `result = (maskedVal1 ± maskedVal2) & mask`. -/
def arithResult : ArithOp → Nat → Nat → Nat → Nat
  | .add, size, m1, m2 => (m1 + m2) % 2 ^ size
  | .sub, size, m1, m2 => (((m1 : Int) - (m2 : Int)).emod (2 ^ size)).toNat

/-- The flag computation at the end of `executeArithmeticWithFlags`, over the
masked operands and the masked result. -/
def computeArithFlags (op : ArithOp) (size m1 m2 result : Nat) : Flags :=
  let mask := 2 ^ size - 1
  let signMask := 2 ^ (size - 1)
  { N := decide (result &&& signMask ≠ 0)
    Z := decide (result &&& mask = 0)
    C := match op with
      | .add => decide (result < m1)
      | .sub => decide (m2 ≤ m1)
    V :=
      let val1Negative := decide (m1 &&& signMask ≠ 0)
      let val2Negative := decide (m2 &&& signMask ≠ 0)
      let resultNegative := decide (result &&& signMask ≠ 0)
      match op with
      | .add => (val1Negative == val2Negative) && (resultNegative != val1Negative)
      | .sub => (val1Negative != val2Negative) && (resultNegative != val1Negative) }

/-- Source `executeArithmeticWithFlags(parsed, operation, writeResult)`
(handles `adds`, `subs`, `cmp`, `cmn`).  Width is 32 iff `src1` is a `w`
register; operands and result are masked to that width; the destination (when
`writeResult` and present) is written — with the distinguished `sp` stack
path using the full unmasked values — and all four flags are recomputed from
the masked quantities. -/
def executeArithmeticWithFlags (s : SimState) (p : ArithOperands)
    (op : ArithOp) (writeResult : Bool) : Except String SimState :=
  match p.src1 with
  | none => .error "missing first operand"
  | some src1 =>
    let val1 := getRegisterValue s.regs src1
    match arithVal2 s p with
    | none => .error "missing second operand"
    | some val2 =>
      let size : Nat := arithSize src1
      let m1 : Nat := maskedNat val1 size  -- val1 & mask
      let m2 : Nat := maskedNat val2 size  -- val2 & mask
      let result0 : Nat := arithResult op size m1 m2
      let step2 : Except String (Nat × SimState) :=
        if writeResult then
          match p.dest with
          | some dest =>
            if dest = Reg.sp then
              match op with
              | .add =>
                if val2.tmod 16 ≠ 0 then
                  .error "stack operations must use multiples of 16"
                else
                  let newSP := val1 + val2  -- full 64-bit values for SP
                  if newSP.tmod 16 ≠ 0 then
                    .error "stack pointer must remain 16-byte aligned"
                  else
                    .ok (maskedNat newSP size,
                      destroyStackFrame
                        { s with regs := setRegisterValue s.regs dest newSP }
                        newSP val2)
              | .sub =>
                if val2.tmod 16 ≠ 0 then
                  .error "stack operations must use multiples of 16"
                else
                  let newSP := val1 - val2
                  if newSP.tmod 16 ≠ 0 then
                    .error "stack pointer must remain 16-byte aligned"
                  else if newSP < 0 then
                    .error "stack overflow"
                  else
                    .ok (maskedNat newSP size,
                      createStackFrame
                        { s with regs := setRegisterValue s.regs dest newSP }
                        newSP val2)
            else
              .ok (result0,
                { s with regs := setRegisterValue s.regs dest (result0 : Int) })
          | none => .ok (result0, s)
        else .ok (result0, s)
      match step2 with
      | .error e => .error e
      | .ok (result, s1) =>
        .ok { s1 with flags := computeArithFlags op size m1 m2 result }

/-! ## Return handling (source: `findInstructionIndexByAddress`,
`executeRet`) -/

/-- The scan loop of `findInstructionIndexByAddress` with its running index:
exact match returns the index; the first address beyond the target returns
the previous index (clamped at 0); falling off the end returns 0. -/
def findInstrIdxAux (addr : Int) : Nat → List Instr → Nat
  | _, [] => 0
  | i, ins :: rest =>
    if ins.address = addr then i
    else if ins.address > addr then (if i > 0 then i - 1 else 0)
    else findInstrIdxAux addr (i + 1) rest

/-- Source `findInstructionIndexByAddress(address)`. -/
def findInstructionIndexByAddress (instrs : List Instr) (addr : Int) : Nat :=
  findInstrIdxAux addr 0 instrs

/-- The non-entry tail of `executeRet`: read the return address from the
named register or `x30`, halt cleanly (PC := 0, `false`) on a zero or
negative address or an out-of-range index, else branch to it (`true`).
(`instructionIndex < 0` in the source can never hold and is dropped with the
`Nat` index.) -/
def executeRetNormal (s : SimState) (src : Option Reg) : Bool × SimState :=
  let retAddr := match src with
    | some r => getRegisterValue s.regs r
    | none => getRegisterValue s.regs (.gp false 30)
  if retAddr = 0 ∨ retAddr < 0 then
    (false, { s with regs := { s.regs with pc := 0 } })
  else
    let instructionIndex := findInstructionIndexByAddress s.instructions retAddr
    if instructionIndex ≥ s.instructions.length then
      (false, { s with regs := { s.regs with pc := 0 } })
    else
      (true, { s with
        regs := { s.regs with pc := retAddr },
        currentInstructionIndex := instructionIndex })

/-- Source `executeRet(parsed)`: if an entry label is recorded and the
current instruction (located from PC) lies in the entry function's index
range, halt unconditionally with PC := 0; otherwise fall through to the
normal return. -/
def executeRet (s : SimState) (src : Option Reg) : Bool × SimState :=
  let currentInstructionAddr := s.regs.pc
  let currentIdx := findInstructionIndexByAddress s.instructions currentInstructionAddr
  if s.entryPointLabel.isSome ∧ 0 ≤ s.entryPointAddress then
    let entryPointIndex := findInstructionIndexByAddress s.instructions s.entryPointAddress
    if entryPointIndex ≤ currentIdx ∧ (currentIdx : Int) < s.entryFunctionEndIndex ∧
        s.entryPointAddress ≤ currentInstructionAddr then
      (false, { s with regs := { s.regs with pc := 0 } })
    else
      executeRetNormal s src
  else
    executeRetNormal s src

/-! ## Two-pass parser, text-section fragment (source:
`ARM64Parser.buildSymbolTable`, `ARM64Parser.parseProgram`,
`ARM64Parser.removeComments`, `ARM64Simulator.parseInstruction`).

The embedding covers the fragment both passes traverse for `.text`
programs made of blank lines, labels and instruction lines — the only
fragment claim C8 speaks about for its labeled-instruction property.  A
line that leads into unmodeled territory (any `.`-directive: sections,
`.global`, data directives) or that makes the source `throw` (a duplicate
label) maps to `none`.  String work is done on `List Char` with the exact
character tests of the source's regexes. -/

/-- `line.indexOf('//') / line.indexOf(';')` prefix cut of
`removeComments` (and of `parseInstruction`'s
`line.split('//')[0].split(';')[0]`, which computes the same prefix):
everything before the first `;` or `//`. -/
def removeCommentsAux : List Char → List Char
  | [] => []
  | c :: rest =>
    if c = ';' then []
    else if c = '/' then
      match rest with
      | c2 :: _ => if c2 = '/' then [] else c :: removeCommentsAux rest
      | [] => [c]
    else c :: removeCommentsAux rest

/-- JS `String.prototype.trim` over the whitespace these sources meet. -/
def jsTrim (l : List Char) : List Char :=
  ((l.dropWhile Char.isWhitespace).reverse.dropWhile Char.isWhitespace).reverse

/-- First character class of the label regex `[a-zA-Z_]`. -/
def isIdentStart (c : Char) : Bool :=
  (c ≥ 'a' ∧ c ≤ 'z') ∨ (c ≥ 'A' ∧ c ≤ 'Z') ∨ c = '_'

/-- Continuation class of the label regex `[a-zA-Z0-9_]`. -/
def isIdentChar (c : Char) : Bool :=
  isIdentStart c ∨ (c ≥ '0' ∧ c ≤ '9')

/-- The label regex `^([a-zA-Z_][a-zA-Z0-9_]*)\s*:\s*(.*)$` of both passes:
the identifier and the text after the colon (whose leading whitespace the
regex consumes; callers `.trim()` it further). -/
def labelSplit (l : List Char) : Option (List Char × List Char) :=
  match l with
  | [] => none
  | c :: cs =>
    if isIdentStart c then
      let identRest := cs.takeWhile isIdentChar
      let rest1 := cs.dropWhile isIdentChar
      let rest2 := rest1.dropWhile Char.isWhitespace
      match rest2 with
      | c2 :: rest3 =>
        if c2 = ':' then some (c :: identRest, rest3.dropWhile Char.isWhitespace)
        else none
      | [] => none
    else none

/-- `line.split(/\s+/).filter(p => p.length > 0)`: whitespace tokenizing
with empty pieces dropped. -/
def splitWsAux : List Char → List Char → List (List Char)
  | [], acc => if acc = [] then [] else [acc.reverse]
  | c :: rest, acc =>
    if c.isWhitespace then
      if acc = [] then splitWsAux rest [] else acc.reverse :: splitWsAux rest []
    else splitWsAux rest (c :: acc)

/-- The `case` labels of `parseInstruction`'s opcode `switch`. -/
def knownOpcodes : List String :=
  ["mov", "add", "adds", "sub", "subs", "cmp", "cmn", "and", "ands", "orr",
   "eor", "bic", "lsl", "lsr", "asr", "ror", "mvn", "b", "bl", "cbz", "cbnz",
   "str", "ldr", "ret", "adr", "adrp"]

/-- The `default:` branch's conditional-branch regex
`^b(eq|ne|lt|le|gt|ge|lo|ls|hi|hs|mi|pl)$`, as the anchored word list. -/
def condBranchOpcodes : List String :=
  ["beq", "bne", "blt", "ble", "bgt", "bge", "blo", "bls", "bhi", "bhs",
   "bmi", "bpl"]

/-- The base record `{opcode, line}` that every non-`null` return of
`parseInstruction` carries.  The per-opcode operand fields are not modeled:
they never influence whether a record is returned, and claim C8 only
concerns emission and addresses.  (Operand sub-parsers can `throw`; the
fragment's `ret` and label lines never reach them.) -/
structure ParsedLine where
  opcode : String
  line : String
deriving DecidableEq, Repr

/-- Source `ARM64Simulator.parseInstruction(line)`, to the depth above:
strip comments, trim, return `null` on an empty line, tokenize on
whitespace, lowercase the first token, and dispatch on the opcode —
unknown opcodes that are not conditional branches return `null`. -/
def parseInstruction (line : String) : Option ParsedLine :=
  let cleaned := jsTrim (removeCommentsAux line.data)
  if cleaned = [] then none
  else
    let parts := splitWsAux cleaned []
    let opcode := String.mk ((parts.headD []).map Char.toLower)
    if knownOpcodes.contains opcode ∨ condBranchOpcodes.contains opcode then
      some { opcode := opcode, line := String.mk cleaned }
    else none

/-- Pass-1 state: the symbol table in insertion order and the `.text`
location counter (the only counter the fragment touches). -/
structure SymbolTableState where
  symbolTable : List (String × LabelInfo)
  textCounter : Int
deriving DecidableEq, Repr

/-- One line of Pass 1 (`buildSymbolTable`), text fragment: skip blank
lines; a label line records the label at the current counter (`type` is
`code`, `isGlobal` is false — no `.global` occurs in the fragment) and, if
followed on the same line by more text, counts 4 bytes; any other
non-`.`-line counts 4 bytes.  `none`: `.`-directives (outside the
fragment) and duplicate labels (source `throw`). -/
def buildSymbolTableLine (st : SymbolTableState) (line : String) :
    Option SymbolTableState :=
  let trimmed := jsTrim (removeCommentsAux line.data)
  if trimmed = [] then some st
  else if trimmed.headD ' ' = '.' then none
  else
    match labelSplit trimmed with
    | some (labelName, afterRaw) =>
      let name := String.mk labelName
      let lineAfterLabel := jsTrim afterRaw
      if (st.symbolTable.lookup name).isSome then none
      else
        let st' : SymbolTableState :=
          { st with symbolTable := st.symbolTable ++
              [(name, { address := st.textCounter, sec := "text",
                        type := "code", isGlobal := false })] }
        if lineAfterLabel = [] then some st'
        else some { st' with textCounter := st'.textCounter + 4 }
    | none => some { st with textCounter := st.textCounter + 4 }

/-- Source `buildSymbolTable(lines)` over the text fragment. -/
def buildSymbolTable (lines : List String) : Option SymbolTableState :=
  lines.foldl (fun acc line => acc.bind (fun st => buildSymbolTableLine st line))
    (some { symbolTable := [], textCounter := 0 })

/-- An entry of Pass 2's `instructions` array. -/
structure InstrEntry where
  original : String
  address : Int
  parsed : ParsedLine
deriving DecidableEq, Repr

/-- Pass-2 state: the emitted instruction list and the `.text` counter. -/
structure ParseProgramState where
  instructions : List InstrEntry
  textCounter : Int
deriving DecidableEq, Repr

/-- One line of Pass 2 (`parseProgram`), text fragment: skip blank lines;
strip a leading label only into `lineAfterLabel` (the symbol-table address
check merely `console.warn`s, so it is stateless); if what follows the
label starts with `.` the directive branch runs (outside the fragment);
otherwise the *whole trimmed line* — label included — is handed to
`parseInstruction`, and only a non-`null` parse emits an entry at the
current counter and advances it by 4. -/
def parseProgramLine (st : ParseProgramState) (line : String) :
    Option ParseProgramState :=
  let trimmed := jsTrim (removeCommentsAux line.data)
  if trimmed = [] then some st
  else if trimmed.headD ' ' = '.' then none
  else
    let lineAfterLabel :=
      match labelSplit trimmed with
      | some (_, afterRaw) => jsTrim afterRaw
      | none => trimmed
    if lineAfterLabel.headD ' ' = '.' then none
    else
      match parseInstruction (String.mk trimmed) with
      | some p =>
        let entry : InstrEntry :=
          { original := String.mk trimmed, address := st.textCounter,
            parsed := p }
        some { instructions := st.instructions ++ [entry],
               textCounter := st.textCounter + 4 }
      | none => some st

/-- Source `parseProgram(lines, symbolTable)` over the text fragment (the
`symbolTable` argument only feeds a `console.warn` here and is dropped). -/
def parseProgram (lines : List String) : Option ParseProgramState :=
  lines.foldl (fun acc line => acc.bind (fun st => parseProgramLine st line))
    (some { instructions := [], textCounter := 0 })

/-! ## Concrete states for witnesses -/

/-- The symbol-table record Pass 1 builds for a label `foo` at the start of
the text section. -/
def fooLabel : LabelInfo :=
  { address := 0, sec := "text", type := "code", isGlobal := false }

/-- The parse record of a bare `ret` line. -/
def retParsed : ParsedLine :=
  { opcode := "ret", line := "ret" }

/-- The Pass-2 entry of a bare `ret` line at address 0. -/
def retEntry0 : InstrEntry :=
  { original := "ret", address := 0, parsed := retParsed }

/-- All-zero registers with the reset stack pointer. -/
def zeroRegs : RegFile :=
  { x := fun _ => 0, sp := initialSp, pc := 0 }

/-- A freshly reset simulator state. -/
def sampleState : SimState :=
  { regs := zeroRegs
    flags := { N := false, Z := false, C := false, V := false }
    memory := []
    symbolTable := []
    stackFrames := []
    nextFrameId := 1
    instructions := []
    currentInstructionIndex := 0
    entryPointAddress := 0
    entryPointLabel := none
    entryFunctionEndIndex := -1 }

/-- Operands of `adds x0, x1, #7`. -/
def sampleAddOperands : ArithOperands :=
  { dest := some (.gp false 0), src1 := some (.gp false 1), src2 := none,
    immediate := some 7, label := none, labelOp := none }

/-- The state produced by running `adds x0, x1, #7` on `sampleState`. -/
def c1WitnessState : SimState :=
  (executeArithmeticWithFlags sampleState sampleAddOperands .add true).toOption.getD sampleState

/-- `sampleState` with `x2 = 1` (for `sub x0, x1, x2`). -/
def c3SubState : SimState :=
  { sampleState with regs := { zeroRegs with x := Function.update zeroRegs.x 2 1 } }

/-- Operands of `sub x0, x1, x2`. -/
def c3SubOperands : ArithOperands :=
  { dest := some (.gp false 0), src1 := some (.gp false 1), src2 := some (.gp false 2),
    immediate := none, label := none, labelOp := none }

/-- `sampleState` with `x1 = 2^32` (for `adds x0, x1, w2`). -/
def c3MixedState : SimState :=
  { sampleState with regs := { zeroRegs with x := Function.update zeroRegs.x 1 0x100000000 } }

/-- Operands of `adds x0, x1, w2` (second operand register is the `w` view). -/
def c3MixedOperands : ArithOperands :=
  { dest := some (.gp false 0), src1 := some (.gp false 1), src2 := some (.gp true 2),
    immediate := none, label := none, labelOp := none }

/-- Operands of `sub sp, sp, #16` / `add sp, sp, #16`. -/
def sp16Operands : ArithOperands :=
  { dest := some .sp, src1 := some .sp, src2 := none,
    immediate := some 16, label := none, labelOp := none }

/-- Proof helper (not source): insertion into a descending-sorted frame list
placing the new frame *after* frames of equal `sp`.  On a sorted list this is
what appending the new frame and stable-sorting (`createStackFrame`)
produces. -/
def insertFrameAfterTies (g : Frame) : List Frame → List Frame
  | [] => [g]
  | a :: t => if g.sp ≤ a.sp then a :: insertFrameAfterTies g t else g :: a :: t

/-- `sampleState` with `sp = 0` (stack pointer at the bottom of the address
space). -/
def c5ZeroSpState : SimState :=
  { sampleState with regs := { zeroRegs with sp := 0 } }

/-- `sampleState` with `sp = 32` and one stale stack-frame record occupying
`[16, 32)` — reachable via `sub sp,#16; sub sp,#16; sub sp,#16; add sp,#32`,
whose mismatch removal deletes the wrong frame and leaves a frame below
`sp`. -/
def c5DupState : SimState :=
  { sampleState with
    regs := { zeroRegs with sp := 32 }
    stackFrames := [{ id := 1, sp := 16, size := 16, top := 32 }]
    nextFrameId := 5 }

/-- A loaded four-instruction program whose entry function `_start` spans
instruction indices `[0, 2)`; the `ret` about to execute sits at address 8
(index 2, *outside* the entry range) and `x30` holds `0x1000`, an address
beyond every instruction. -/
def c4State : SimState :=
  { sampleState with
    instructions := [{ address := 0 }, { address := 4 }, { address := 8 }, { address := 12 }]
    currentInstructionIndex := 2
    entryPointAddress := 0
    entryPointLabel := some "_start"
    entryFunctionEndIndex := 2
    regs := { zeroRegs with pc := 8, x := Function.update zeroRegs.x 30 0x1000 } }

/-- The same program with the `ret` executing at address 0 — inside the
entry function — and a stale nonzero `x30`. -/
def c4HaltState : SimState :=
  { c4State with
    currentInstructionIndex := 0
    regs := { zeroRegs with pc := 0, x := Function.update zeroRegs.x 30 0x1000 } }

/-! # Theorems -/

/-! ## General-purpose helper lemmas -/

/-- Any number below `2^32` ors with the high mask by plain addition. -/
theorem lor_high_of_lt {l : Nat} (h : l < 2 ^ 32) :
    l ||| 0xFFFFFFFF00000000 = 0xFFFFFFFF00000000 + l := by
  have h2 : (0xFFFFFFFF00000000 : Nat) = 2 ^ 32 * 0xFFFFFFFF := by norm_num
  rw [h2, Nat.lor_comm, ← Nat.mul_add_lt_is_or h]

/-- The `&` test against a single-bit mask is `testBit`. -/
theorem and_two_pow_ne_zero_iff (n k : Nat) :
    (n &&& 2 ^ k ≠ 0) ↔ n.testBit k = true := by
  rw [Nat.and_two_pow]
  rcases hb : n.testBit k <;> simp [hb]

/-- `Int.emod` by a positive power of two is nonnegative and bounded. -/
theorem emod_two_pow_bounds (v : Int) (k : Nat) :
    0 ≤ v.emod (2 ^ k) ∧ v.emod (2 ^ k) < 2 ^ k := by
  constructor
  · exact Int.emod_nonneg v (by positivity)
  · exact Int.emod_lt_of_pos v (by positivity)

/-- `toNat` of an `emod` by a power of two is below that power. -/
theorem toNat_emod_two_pow_lt (v : Int) (k : Nat) :
    (v.emod (2 ^ k)).toNat < 2 ^ k := by
  have h := emod_two_pow_bounds v k
  have h2 : ((2 ^ k : Nat) : Int) = (2 : Int) ^ k := by push_cast; ring
  omega

/-- Casting the `toNat` of a nonnegative `emod` back to `Int`. -/
theorem toNat_emod_two_pow_cast (v : Int) (k : Nat) :
    (((v.emod (2 ^ k)).toNat : Nat) : Int) = v.emod (2 ^ k) :=
  Int.toNat_of_nonneg (emod_two_pow_bounds v k).1

/-! ## C7 — 32-bit register views -/

/-- C7: writing the `w` view of register `n` stores the low 32 bits of the
value zero-extended into the full 64-bit cell (the stored value is exactly
`v mod 2^32`, hence nonnegative and below `2^32`); reading the `w` view
returns the stored cell's low 32 bits with bit 31 sign-extended into the
64-bit read result (high 32 bits all ones when bit 31 is set, zero
otherwise). -/
theorem claim_c7_register_views :
    ∀ (r : RegFile) (n : Fin 31) (v : Int),
      ((setRegisterValue r (.gp true n) v).x n = v.emod (2 ^ 32)
        ∧ 0 ≤ (setRegisterValue r (.gp true n) v).x n
        ∧ (setRegisterValue r (.gp true n) v).x n < 2 ^ 32)
      ∧ (getRegisterValue r (.gp true n) =
          (let low := (r.x n).emod (2 ^ 32)
           if low.toNat.testBit 31 then low + 0xFFFFFFFF00000000 else low)) := by
  intro r n v
  refine ⟨⟨?_, ?_, ?_⟩, ?_⟩
  · simp [setRegisterValue]
  · simp only [setRegisterValue, Function.update_same]
    exact (emod_two_pow_bounds v 32).1
  · simp only [setRegisterValue, Function.update_same]
    exact (emod_two_pow_bounds v 32).2
  · show (if ((r.x n).emod 0x100000000).toNat &&& 0x80000000 ≠ 0 then
        (((((r.x n).emod 0x100000000).toNat ||| 0xFFFFFFFF00000000 : Nat)) : Int)
      else ((((r.x n).emod 0x100000000).toNat : Nat) : Int)) = _
    have hlt : ((r.x n).emod 0x100000000).toNat < 2 ^ 32 :=
      toNat_emod_two_pow_lt (r.x n) 32
    have hcast := toNat_emod_two_pow_cast (r.x n) 32
    have hbit : (((r.x n).emod 0x100000000).toNat &&& 0x80000000 ≠ 0) ↔
        ((r.x n).emod 0x100000000).toNat.testBit 31 = true := by
      have := and_two_pow_ne_zero_iff ((r.x n).emod 0x100000000).toNat 31
      norm_num at this ⊢
      exact this
    rcases hb : ((r.x n).emod 0x100000000).toNat.testBit 31 with _ | _
    · rw [if_neg (by simp [hbit, hb]), if_neg (by norm_num at hb ⊢; exact hb)]
      norm_num at hcast ⊢
      exact hcast
    · rw [if_pos (hbit.mpr hb), if_pos (by norm_num at hb ⊢; exact hb)]
      rw [lor_high_of_lt hlt]
      push_cast
      norm_num at hcast ⊢
      omega

/-! ## C10 — initial stack pointer -/

/-- C10: after `reset`, `sp = 0x08000000`, one byte past the stack region's
end and inside no region; every 1/2/4/8-byte access at that address fails
validation. -/
theorem claim_c10_initial_sp :
    initialSp = 0x08000000
    ∧ (∃ stackRegion ∈ memoryLayout,
        stackRegion.key = "stack" ∧ stackRegion.endAddr + 1 = initialSp)
    ∧ (∀ r ∈ memoryLayout, ¬(r.startAddr ≤ initialSp ∧ initialSp ≤ r.endAddr))
    ∧ (∀ (sp : Int) (size : Nat) (isWrite : Bool),
        size = 1 ∨ size = 2 ∨ size = 4 ∨ size = 8 →
        ∃ e, validateMemoryAccess sp initialSp size isWrite = .error e) := by
  refine ⟨by decide, ⟨memoryLayout.getLast (by decide), by decide, by decide, by decide⟩, by decide, ?_⟩
  intro sp size isWrite h
  rcases h with h | h | h | h <;> subst h <;> exact ⟨_, rfl⟩

/-- Witness for C10 at a concrete access width. -/
theorem claim_c10_initial_sp_witness :
    initialSp = 0x08000000
    ∧ (∃ e, validateMemoryAccess 0 initialSp 8 true = .error e) :=
  ⟨claim_c10_initial_sp.1, claim_c10_initial_sp.2.2.2 0 8 true (by decide)⟩

/-! ## C1 — NZCV flag computation -/

/-- `decide` form of the single-bit test. -/
theorem decide_and_two_pow (x k : Nat) :
    decide (x &&& 2 ^ k ≠ 0) = x.testBit k := by
  rcases hb : x.testBit k with _ | _
  · have h : ¬(x &&& 2 ^ k ≠ 0) := fun hnz => by
      have := (and_two_pow_ne_zero_iff x k).mp hnz
      rw [hb] at this
      exact Bool.false_ne_true this
    simp [h]
  · simp [(and_two_pow_ne_zero_iff x k).mpr hb]

/-- The single-bit mask vanishes exactly when the bit is clear. -/
theorem and_two_pow_eq_zero_iff (x k : Nat) :
    (x &&& 2 ^ k = 0) ↔ x.testBit k = false := by
  rcases hb : x.testBit k with _ | _
  · simp [Nat.and_two_pow, hb]
  · have : 0 < 2 ^ k := Nat.two_pow_pos k
    simp [Nat.and_two_pow, hb]

/-- Masking a sum is summing the masked values (the `sp`-path flag result
agrees with the normal-path flag result). -/
theorem maskedNat_add_eq (a b : Int) (k : Nat) :
    maskedNat (a + b) k = arithResult .add k (maskedNat a k) (maskedNat b k) := by
  have ha := (emod_two_pow_bounds a k).1
  have hb := (emod_two_pow_bounds b k).1
  have key : (((maskedNat a k + maskedNat b k) % 2 ^ k : Nat) : Int)
      = (a + b).emod ((2 : Int) ^ k) := by
    push_cast [maskedNat, Int.toNat_of_nonneg ha, Int.toNat_of_nonneg hb]
    show (a % 2 ^ k + b % 2 ^ k) % 2 ^ k = (a + b) % 2 ^ k
    rw [← Int.add_emod]
  show ((a + b).emod (2 ^ k)).toNat = (maskedNat a k + maskedNat b k) % 2 ^ k
  rw [← key, Int.toNat_natCast]

/-- Masking a difference likewise. -/
theorem maskedNat_sub_eq (a b : Int) (k : Nat) :
    maskedNat (a - b) k = arithResult .sub k (maskedNat a k) (maskedNat b k) := by
  show (((a - b) % (2 ^ k) : Int)).toNat
      = ((((maskedNat a k : Nat) : Int) - ((maskedNat b k : Nat) : Int)) % (2 ^ k)).toNat
  rw [maskedNat, maskedNat, toNat_emod_two_pow_cast, toNat_emod_two_pow_cast]
  show ((a - b) % (2 ^ k)).toNat = ((a % 2 ^ k - b % 2 ^ k) % 2 ^ k).toNat
  rw [← Int.sub_emod]

/-- The masked result is below the width bound. -/
theorem arithResult_lt (op : ArithOp) (size m1 m2 : Nat) :
    arithResult op size m1 m2 < 2 ^ size := by
  cases op
  · exact Nat.mod_lt _ (by positivity)
  · exact toNat_emod_two_pow_lt _ _

/-- N is the sign bit of the masked result. -/
theorem computeArithFlags_N (op : ArithOp) (size m1 m2 result : Nat) :
    (computeArithFlags op size m1 m2 result).N = result.testBit (size - 1) := by
  cases op <;> simp [computeArithFlags, and_two_pow_eq_zero_iff]

/-- Z holds iff the masked result is zero. -/
theorem computeArithFlags_Z (op : ArithOp) (size m1 m2 result : Nat)
    (h : result < 2 ^ size) :
    ((computeArithFlags op size m1 m2 result).Z = true ↔ result = 0) := by
  cases op <;>
    simp [computeArithFlags, Nat.and_pow_two_sub_one_eq_mod, Nat.mod_eq_of_lt h]

/-- For addition, C holds iff unsigned wraparound occurred. -/
theorem computeArithFlags_C_add (size m1 m2 result : Nat) :
    ((computeArithFlags .add size m1 m2 result).C = true ↔ result < m1) := by
  simp [computeArithFlags]

/-- For subtraction, C holds iff there is no borrow. -/
theorem computeArithFlags_C_sub (size m1 m2 result : Nat) :
    ((computeArithFlags .sub size m1 m2 result).C = true ↔ m2 ≤ m1) := by
  simp [computeArithFlags]

/-- For addition, V holds iff the operands share a sign and the result's
sign differs. -/
theorem computeArithFlags_V_add (size m1 m2 result : Nat) :
    ((computeArithFlags .add size m1 m2 result).V = true ↔
      (m1.testBit (size - 1) = m2.testBit (size - 1)
        ∧ result.testBit (size - 1) ≠ m1.testBit (size - 1))) := by
  simp only [computeArithFlags, Bool.and_eq_true, decide_eq_true_eq, bne_iff_ne,
    ne_eq, beq_iff_eq, decide_not, Bool.not_not, Bool.not_eq_true,
    and_two_pow_eq_zero_iff, decide_eq_decide]
  generalize m1.testBit (size - 1) = a
  generalize m2.testBit (size - 1) = b
  generalize result.testBit (size - 1) = c
  revert a b c
  decide

/-- For subtraction, V holds iff the operands differ in sign and the
result's sign differs from the first operand's. -/
theorem computeArithFlags_V_sub (size m1 m2 result : Nat) :
    ((computeArithFlags .sub size m1 m2 result).V = true ↔
      (m1.testBit (size - 1) ≠ m2.testBit (size - 1)
        ∧ result.testBit (size - 1) ≠ m1.testBit (size - 1))) := by
  simp only [computeArithFlags, Bool.and_eq_true, decide_eq_true_eq, bne_iff_ne,
    ne_eq, beq_iff_eq, decide_not, Bool.not_not, Bool.not_eq_true,
    and_two_pow_eq_zero_iff, decide_eq_decide]
  generalize m1.testBit (size - 1) = a
  generalize m2.testBit (size - 1) = b
  generalize result.testBit (size - 1) = c
  revert a b c
  decide

/-- Every successful `executeArithmeticWithFlags` leaves exactly the flags
computed from the masked operands and masked result at the width chosen by
`src1` (the `sp` stack path rewrites the flag result to the masked new `sp`,
which coincides with the masked sum/difference). -/
theorem executeArithmeticWithFlags_flags
    (s : SimState) (p : ArithOperands) (op : ArithOp) (writeResult : Bool)
    (s' : SimState) (src1 : Reg) (val2 : Int)
    (hsrc1 : p.src1 = some src1) (hval2 : arithVal2 s p = some val2)
    (hok : executeArithmeticWithFlags s p op writeResult = .ok s') :
    s'.flags = computeArithFlags op (arithSize src1)
      (maskedNat (getRegisterValue s.regs src1) (arithSize src1))
      (maskedNat val2 (arithSize src1))
      (arithResult op (arithSize src1)
        (maskedNat (getRegisterValue s.regs src1) (arithSize src1))
        (maskedNat val2 (arithSize src1))) := by
  unfold executeArithmeticWithFlags at hok
  rw [hsrc1] at hok
  dsimp only at hok
  rw [hval2] at hok
  dsimp only at hok
  split at hok
  · exact absurd hok (by simp)
  · rename_i result s1 heq
    rw [Except.ok.injEq] at hok
    subst hok
    split at heq
    · split at heq
      · split at heq
        · split at heq
          · split at heq
            · exact absurd heq (by simp)
            · split at heq
              · exact absurd heq (by simp)
              · rw [Except.ok.injEq, Prod.mk.injEq] at heq
                rw [← heq.1, maskedNat_add_eq]
          · split at heq
            · exact absurd heq (by simp)
            · split at heq
              · exact absurd heq (by simp)
              · split at heq
                · exact absurd heq (by simp)
                · rw [Except.ok.injEq, Prod.mk.injEq] at heq
                  rw [← heq.1, maskedNat_sub_eq]
        · rw [Except.ok.injEq, Prod.mk.injEq] at heq
          rw [← heq.1]
      · rw [Except.ok.injEq, Prod.mk.injEq] at heq
        rw [← heq.1]
    · rw [Except.ok.injEq, Prod.mk.injEq] at heq
      rw [← heq.1]

/-- C1: for every successful `adds`/`subs`/`cmp`/`cmn` the flags satisfy the
documented NZCV rules at the chosen width, and the scenario `cmp x0, x1` with
`x0 = 5`, `x1 = 10` yields N, ¬Z, ¬C, ¬V. -/
theorem claim_c1_nzcv_flags :
    (∀ (s : SimState) (p : ArithOperands) (op : ArithOp) (writeResult : Bool)
        (s' : SimState) (src1 : Reg) (val2 : Int),
      p.src1 = some src1 →
      arithVal2 s p = some val2 →
      executeArithmeticWithFlags s p op writeResult = .ok s' →
      (let size := arithSize src1
       let m1 := maskedNat (getRegisterValue s.regs src1) size
       let m2 := maskedNat val2 size
       let result := arithResult op size m1 m2
       (s'.flags.N = result.testBit (size - 1))
       ∧ (s'.flags.Z = true ↔ result = 0)
       ∧ (op = .add → (s'.flags.C = true ↔ result < m1))
       ∧ (op = .sub → (s'.flags.C = true ↔ m2 ≤ m1))
       ∧ (op = .add → (s'.flags.V = true ↔
            (m1.testBit (size - 1) = m2.testBit (size - 1)
              ∧ result.testBit (size - 1) ≠ m1.testBit (size - 1))))
       ∧ (op = .sub → (s'.flags.V = true ↔
            (m1.testBit (size - 1) ≠ m2.testBit (size - 1)
              ∧ result.testBit (size - 1) ≠ m1.testBit (size - 1))))))
    ∧ (∀ s : SimState, s.regs.x 0 = 5 → s.regs.x 1 = 10 →
        ∃ s', executeArithmeticWithFlags s
            { dest := none, src1 := some (.gp false 0), src2 := some (.gp false 1),
              immediate := none, label := none, labelOp := none } .sub false = .ok s'
          ∧ s'.flags = { N := true, Z := false, C := false, V := false }) := by
  constructor
  · intro s p op writeResult s' src1 val2 hsrc1 hval2 hok
    have hf := executeArithmeticWithFlags_flags s p op writeResult s' src1 val2
      hsrc1 hval2 hok
    intro size m1 m2 result
    rw [hf]
    refine ⟨computeArithFlags_N op size m1 m2 result,
      computeArithFlags_Z op size m1 m2 result (arithResult_lt op size m1 m2),
      ?_, ?_, ?_, ?_⟩
    · rintro rfl; exact computeArithFlags_C_add size m1 m2 result
    · rintro rfl; exact computeArithFlags_C_sub size m1 m2 result
    · rintro rfl; exact computeArithFlags_V_add size m1 m2 result
    · rintro rfl; exact computeArithFlags_V_sub size m1 m2 result
  · intro s h0 h1
    refine ⟨_, rfl, ?_⟩
    show (computeArithFlags .sub (arithSize (.gp false 0))
      (maskedNat (getRegisterValue s.regs (.gp false 0)) 64)
      (maskedNat (getRegisterValue s.regs (.gp false 1)) 64)
      (arithResult .sub 64 (maskedNat (getRegisterValue s.regs (.gp false 0)) 64)
        (maskedNat (getRegisterValue s.regs (.gp false 1)) 64))) = _
    rw [show getRegisterValue s.regs (.gp false 0) = s.regs.x 0 from rfl,
      show getRegisterValue s.regs (.gp false 1) = s.regs.x 1 from rfl, h0, h1]
    decide

/-- Witness for C1: `adds x0, x1, #7` on the reset state. -/
theorem claim_c1_nzcv_flags_witness :
    (c1WitnessState.flags.N = (arithResult .add 64 0 7).testBit 63)
    ∧ (c1WitnessState.flags.Z = true ↔ arithResult .add 64 0 7 = 0)
    ∧ (c1WitnessState.flags.C = true ↔ arithResult .add 64 0 7 < 0) := by
  have h := claim_c1_nzcv_flags.1 sampleState sampleAddOperands .add true
    c1WitnessState (.gp false 1) 7 rfl rfl rfl
  exact ⟨h.1, h.2.1, h.2.2.1 rfl⟩

/-! ## C2 — MOV immediate encodability -/

/-- The bits of a shifted `0xFFFF` window. -/
theorem testBit_ffff_shift (s j : Nat) :
    ((0xFFFF <<< s) : Nat).testBit j = (decide (s ≤ j) && decide (j - s < 16)) := by
  rw [Nat.testBit_shiftLeft, show (0xFFFF : Nat) = 2 ^ 16 - 1 by norm_num,
    Nat.testBit_two_pow_sub_one]

/-- Divisibility by `2^k` as a low-bit condition. -/
theorem mod_two_pow_eq_zero_iff_testBit (u k : Nat) :
    u % 2 ^ k = 0 ↔ ∀ j, j < k → u.testBit j = false := by
  constructor
  · intro h j hj
    have h0 : (decide (j < k) && u.testBit j) = false := by
      rw [← Nat.testBit_mod_two_pow, h]
      simp
    simpa [hj] using h0
  · intro h
    apply Nat.eq_of_testBit_eq
    intro j
    rw [Nat.testBit_mod_two_pow]
    by_cases hj : j < k
    · simp [hj, h j hj]
    · simp [hj]

/-- Width bound as a high-bit condition. -/
theorem lt_two_pow_iff_testBit (u m : Nat) :
    u < 2 ^ m ↔ ∀ j, m ≤ j → u.testBit j = false := by
  constructor
  · intro h j hj
    exact Nat.testBit_lt_two_pow
      (lt_of_lt_of_le h (Nat.pow_le_pow_right (by norm_num) hj))
  · intro h
    have heq : u = u % 2 ^ m := by
      apply Nat.eq_of_testBit_eq
      intro j
      rw [Nat.testBit_mod_two_pow]
      by_cases hj : j < m
      · simp [hj]
      · simp [hj, h j (by omega)]
    rw [heq]
    exact Nat.mod_lt _ (by positivity)

/-- A bitwise conjunction vanishes iff no bit is shared. -/
theorem and_eq_zero_iff_testBit (x y : Nat) :
    x &&& y = 0 ↔ ∀ j, x.testBit j = false ∨ y.testBit j = false := by
  constructor
  · intro h j
    have hj : (x &&& y).testBit j = false := by rw [h]; simp
    rw [Nat.testBit_and] at hj
    rcases hx : x.testBit j with _ | _
    · exact Or.inl rfl
    · right
      rw [hx] at hj
      simpa using hj
  · intro h
    apply Nat.eq_of_testBit_eq
    intro j
    rw [Nat.testBit_and]
    rcases h j with h | h <;> simp [h]

/-- The mask against the width window is the window itself. -/
theorem window_and_mask (w s : Nat) (hs : s + 16 ≤ w) :
    ((0xFFFF <<< s) : Nat) &&& (2 ^ w - 1) = 0xFFFF <<< s := by
  apply Nat.and_pow_two_sub_one_of_lt_two_pow
  rw [Nat.shiftLeft_eq]
  calc (0xFFFF : Nat) * 2 ^ s < 2 ^ 16 * 2 ^ s := by
        have : (0 : Nat) < 2 ^ s := Nat.two_pow_pos s
        norm_num
    _ = 2 ^ (s + 16) := by rw [← pow_add]; ring_nf
    _ ≤ 2 ^ w := Nat.pow_le_pow_right (by norm_num) hs

/-- Extracting the chunk at `s` through the window. -/
theorem extract_eq (s u : Nat) :
    ((u &&& (0xFFFF <<< s)) >>> s) = chunkOf u s := by
  apply Nat.eq_of_testBit_eq
  intro j
  rw [Nat.testBit_shiftRight, Nat.testBit_and, testBit_ffff_shift]
  unfold chunkOf
  rw [Nat.testBit_mod_two_pow, ← Nat.shiftRight_eq_div_pow, Nat.testBit_shiftRight]
  have h1 : s ≤ s + j := Nat.le_add_right s j
  have h2 : s + j - s = j := by omega
  by_cases hj : j < 16
  · simp [h1, h2, hj]
  · simp [h1, h2, hj]

/-- "All other bits zero" says exactly: confined to the chunk at `s`. -/
theorem other_bits_zero_iff (w s u : Nat) (hs : s + 16 ≤ w) (hu : u < 2 ^ w) :
    (u &&& ((2 ^ w - 1) ^^^ (0xFFFF <<< s)) = 0)
      ↔ (u % 2 ^ s = 0 ∧ u / 2 ^ s ≤ 0xFFFF) := by
  have hdiv : u / 2 ^ s ≤ 0xFFFF ↔ u < 2 ^ (s + 16) := by
    have hpow : (2 : Nat) ^ 16 * 2 ^ s = 2 ^ (s + 16) := by rw [← pow_add]; ring_nf
    have hiff : u / 2 ^ s < 2 ^ 16 ↔ u < 2 ^ 16 * 2 ^ s :=
      Nat.div_lt_iff_lt_mul (Nat.two_pow_pos s)
    constructor
    · intro h
      have h' : u / 2 ^ s < 2 ^ 16 := by norm_num at h ⊢; omega
      rw [← hpow]
      exact hiff.mp h'
    · intro h
      have h' : u < 2 ^ 16 * 2 ^ s := by rw [hpow]; exact h
      have := hiff.mpr h'
      norm_num at this ⊢
      omega
  rw [and_eq_zero_iff_testBit, mod_two_pow_eq_zero_iff_testBit, hdiv,
    lt_two_pow_iff_testBit]
  constructor
  · intro h
    constructor
    · intro j hj
      rcases h j with hu' | hd
      · exact hu'
      · exfalso
        rw [Nat.testBit_xor, Nat.testBit_two_pow_sub_one, testBit_ffff_shift] at hd
        have hjw : j < w := by omega
        have hjs : ¬(s ≤ j) := by omega
        simp [hjw, hjs] at hd
    · intro j hj
      by_cases hjw : j < w
      · rcases h j with hu' | hd
        · exact hu'
        · exfalso
          rw [Nat.testBit_xor, Nat.testBit_two_pow_sub_one, testBit_ffff_shift] at hd
          have hns : ¬(j - s < 16) := by omega
          simp [hjw, hns] at hd
      · exact Nat.testBit_lt_two_pow
          (lt_of_lt_of_le hu (Nat.pow_le_pow_right (by norm_num) (by omega)))
  · rintro ⟨h1, h2⟩ j
    rcases hju : u.testBit j with _ | _
    · exact Or.inl rfl
    · right
      have hj1 : ¬(j < s) := fun hc => by rw [h1 j hc] at hju; cases hju
      have hj2 : ¬(s + 16 ≤ j) := fun hc => by rw [h2 j hc] at hju; cases hju
      rw [Nat.testBit_xor, Nat.testBit_two_pow_sub_one, testBit_ffff_shift]
      have hjw : j < w := by omega
      simp [hjw, show s ≤ j by omega, show j - s < 16 by omega]

/-- Bits of a chunk. -/
theorem testBit_chunkOf (u cs j : Nat) :
    (chunkOf u cs).testBit j = (decide (j < 16) && u.testBit (cs + j)) := by
  unfold chunkOf
  rw [Nat.testBit_mod_two_pow, ← Nat.shiftRight_eq_div_pow, Nat.testBit_shiftRight]

/-- Chunks commute with xor. -/
theorem chunkOf_xor (a b cs : Nat) :
    chunkOf (a ^^^ b) cs = chunkOf a cs ^^^ chunkOf b cs := by
  apply Nat.eq_of_testBit_eq
  intro j
  rw [testBit_chunkOf, Nat.testBit_xor, Nat.testBit_xor, testBit_chunkOf,
    testBit_chunkOf]
  by_cases hj : j < 16 <;> simp [hj]

/-- Every chunk of the full-width mask is `0xFFFF`. -/
theorem chunkOf_mask (w cs : Nat) (h : cs + 16 ≤ w) :
    chunkOf (2 ^ w - 1) cs = 0xFFFF := by
  rw [show (0xFFFF : Nat) = 2 ^ 16 - 1 by norm_num]
  apply Nat.eq_of_testBit_eq
  intro j
  rw [testBit_chunkOf, Nat.testBit_two_pow_sub_one, Nat.testBit_two_pow_sub_one]
  by_cases hj : j < 16
  · simp [hj, show cs + j < w by omega]
  · simp [hj]

/-- The chunk of the window at its own offset. -/
theorem chunkOf_shift_self (s : Nat) : chunkOf ((0xFFFF : Nat) <<< s) s = 0xFFFF := by
  unfold chunkOf
  rw [Nat.shiftLeft_eq, Nat.mul_div_cancel _ (Nat.two_pow_pos s)]
  norm_num

/-- The chunk of the window at a disjoint offset. -/
theorem chunkOf_shift_other (s cs : Nat) (h : cs + 16 ≤ s ∨ s + 16 ≤ cs) :
    chunkOf ((0xFFFF : Nat) <<< s) cs = 0 := by
  apply Nat.eq_of_testBit_eq
  intro j
  rw [testBit_chunkOf, testBit_ffff_shift]
  by_cases hj : j < 16
  · rcases h with h | h
    · simp [hj, show ¬(s ≤ cs + j) by omega]
    · simp [hj, show ¬(cs + j - s < 16) by omega]
  · simp [hj]

/-- The fuel argument of `countBitsAux` is irrelevant once it covers the
value. -/
theorem countBitsAux_fuel : ∀ (f₁ f₂ v : Nat), v ≤ f₁ → v ≤ f₂ →
    countBitsAux f₁ v = countBitsAux f₂ v := by
  intro f₁
  induction f₁ with
  | zero =>
    intro f₂ v h1 _
    have hv : v = 0 := by omega
    subst hv
    cases f₂ <;> rfl
  | succ m ih =>
    intro f₂ v h1 h2
    cases v with
    | zero => cases f₂ <;> rfl
    | succ n =>
      cases f₂ with
      | zero => omega
      | succ k =>
        show (if (n + 1) &&& 1 ≠ 0 then 1 else 0) + countBitsAux m ((n + 1) / 2)
          = (if (n + 1) &&& 1 ≠ 0 then 1 else 0) + countBitsAux k ((n + 1) / 2)
        rw [ih k ((n + 1) / 2) (by omega) (by omega)]

/-- Unfolding equation of `countBits` at a positive value. -/
theorem countBits_succ (n : Nat) :
    countBits (n + 1)
      = (if (n + 1) &&& 1 ≠ 0 then 1 else 0) + countBits ((n + 1) / 2) := by
  show (if (n + 1) &&& 1 ≠ 0 then 1 else 0) + countBitsAux n ((n + 1) / 2)
    = (if (n + 1) &&& 1 ≠ 0 then 1 else 0) + countBitsAux ((n + 1) / 2) ((n + 1) / 2)
  rw [countBitsAux_fuel n ((n + 1) / 2) ((n + 1) / 2) (by omega) le_rfl]

/-- Population count is bounded by the bit width. -/
theorem countBits_le : ∀ (k c : Nat), c < 2 ^ k → countBits c ≤ k := by
  intro k
  induction k with
  | zero =>
    intro c hc
    have hc0 : c = 0 := by omega
    subst hc0
    exact Nat.le_refl 0
  | succ n ih =>
    intro c hc
    cases c with
    | zero => exact Nat.zero_le _
    | succ m =>
      rw [countBits_succ]
      have hdiv : (m + 1) / 2 < 2 ^ n := by
        have : (2 : Nat) ^ (n + 1) = 2 ^ n * 2 := by ring
        omega
      have hrec := ih ((m + 1) / 2) hdiv
      split_ifs <;> omega

/-- A full population count forces the all-ones pattern. -/
theorem countBits_full : ∀ (k c : Nat), c < 2 ^ k → countBits c = k → c = 2 ^ k - 1 := by
  intro k
  induction k with
  | zero => intro c hc _; omega
  | succ n ih =>
    intro c hc hcb
    cases c with
    | zero =>
      exfalso
      rw [show countBits 0 = 0 from rfl] at hcb
      omega
    | succ m =>
      rw [countBits_succ] at hcb
      have hdiv : (m + 1) / 2 < 2 ^ n := by
        have : (2 : Nat) ^ (n + 1) = 2 ^ n * 2 := by ring
        omega
      have hle := countBits_le n ((m + 1) / 2) hdiv
      have hand : (m + 1) &&& 1 = (m + 1) % 2 := Nat.and_one_is_mod (m + 1)
      by_cases hbit : (m + 1) &&& 1 ≠ 0
      · rw [if_pos hbit] at hcb
        have hfull := ih ((m + 1) / 2) hdiv (by omega)
        have hmod : (m + 1) % 2 = 1 := by omega
        have hp : (2 : Nat) ^ (n + 1) = 2 ^ n * 2 := by ring
        omega
      · rw [if_neg hbit] at hcb
        omega

/-- The `countBits` patch gate over a 16-bit chunk accepts exactly the empty
and the full chunk. -/
theorem movn_gate (c : Nat) (hc : c < 2 ^ 16) :
    (¬(countBits c < 16 ∧ c ≠ 0)) ↔ (c = 0 ∨ c = 0xFFFF) := by
  constructor
  · intro h
    by_cases h0 : c = 0
    · exact Or.inl h0
    · right
      have h16 : ¬(countBits c < 16) := fun hlt => h ⟨hlt, h0⟩
      have hle := countBits_le 16 c hc
      have hfl := countBits_full 16 c hc (by omega)
      norm_num at hfl ⊢
      exact hfl
  · rintro (rfl | rfl)
    · simp
    · rintro ⟨hlt, _⟩
      have h16 : countBits 0xFFFF = 16 := by decide
      omega

/-- Xor with the same value twice cancels. -/
theorem xor_xor_cancel (m u : Nat) : m ^^^ (m ^^^ u) = u := by
  rw [← Nat.xor_assoc, Nat.xor_self, Nat.zero_xor]

/-- Xor stays under a power-of-two bound. -/
theorem nat_xor_lt_two_pow (w a b : Nat) (ha : a < 2 ^ w) (hb : b < 2 ^ w) :
    a ^^^ b < 2 ^ w := by
  rw [lt_two_pow_iff_testBit] at ha hb ⊢
  intro j hj
  rw [Nat.testBit_xor, ha j hj, hb j hj]
  rfl

/-- The window value is below the width bound. -/
theorem window_lt (w s : Nat) (hs : s + 16 ≤ w) : ((0xFFFF : Nat) <<< s) < 2 ^ w := by
  rw [Nat.shiftLeft_eq]
  calc (0xFFFF : Nat) * 2 ^ s < 2 ^ 16 * 2 ^ s := by
        have : (0 : Nat) < 2 ^ s := Nat.two_pow_pos s
        norm_num
    _ = 2 ^ (s + 16) := by rw [← pow_add]; ring_nf
    _ ≤ 2 ^ w := Nat.pow_le_pow_right (by norm_num) hs

/-- The window is a multiple of its own shift. -/
theorem window_mod (s : Nat) : ((0xFFFF : Nat) <<< s) % 2 ^ s = 0 := by
  rw [Nat.shiftLeft_eq]
  exact Nat.mul_mod_left 0xFFFF (2 ^ s)

/-- Dividing the window by its shift recovers `0xFFFF`. -/
theorem window_div (s : Nat) : ((0xFFFF : Nat) <<< s) / 2 ^ s = 0xFFFF := by
  rw [Nat.shiftLeft_eq]
  exact Nat.mul_div_cancel _ (Nat.two_pow_pos s)

/-- Chunks are 16-bit values. -/
theorem chunkOf_lt (u cs : Nat) : chunkOf u cs < 2 ^ 16 :=
  Nat.mod_lt _ (by norm_num)

/-- Chunk of the complement of a value under the width mask. -/
theorem chunkOf_mask_xor (w s : Nat) (hs : s + 16 ≤ w) (nv : Nat) :
    chunkOf ((2 ^ w - 1) ^^^ nv) s = 0xFFFF ^^^ chunkOf nv s := by
  rw [chunkOf_xor, chunkOf_mask w s hs]

/-- A value confined to the chunk at `s` whose chunk is full is the window. -/
theorem confined_eq_window (nv s : Nat) (h1 : nv % 2 ^ s = 0)
    (h2 : nv / 2 ^ s ≤ 0xFFFF) (h3 : chunkOf nv s = 0xFFFF) :
    nv = (0xFFFF : Nat) <<< s := by
  have hlt : nv / 2 ^ s < 2 ^ 16 := by norm_num at h2 ⊢; omega
  have hdiv : nv / 2 ^ s = 0xFFFF := by
    rw [← Nat.mod_eq_of_lt hlt]
    exact h3
  have hmod := Nat.div_add_mod nv (2 ^ s)
  rw [hdiv, h1, Nat.add_zero] at hmod
  rw [← hmod, Nat.shiftLeft_eq, Nat.mul_comm]

/-- The per-shift MOVZ test, characterized. -/
theorem movzCheck_eq (w s u : Nat) (hs : s + 16 ≤ w) (hu : u < 2 ^ w) :
    movzCheck u (2 ^ w - 1) s
      = decide (u % 2 ^ s = 0 ∧ u / 2 ^ s ≤ 0xFFFF ∧ u ≠ 0) := by
  unfold movzCheck
  dsimp only
  rw [window_and_mask w s hs, extract_eq, decide_eq_decide,
    other_bits_zero_iff w s u hs hu]
  constructor
  · rintro ⟨⟨h1, h2⟩, _, h4⟩
    refine ⟨h1, h2, fun h0 => ?_⟩
    subst h0
    simp [chunkOf] at h4
  · rintro ⟨h1, h2, h3⟩
    have hlt : u / 2 ^ s < 2 ^ 16 := by norm_num at h2 ⊢; omega
    have hchunk : chunkOf u s = u / 2 ^ s := Nat.mod_eq_of_lt hlt
    have hpos : 0 < u / 2 ^ s := by
      rcases Nat.eq_zero_or_pos (u / 2 ^ s) with h0 | h0
      · exfalso
        have hdm := Nat.div_add_mod u (2 ^ s)
        rw [h0, h1] at hdm
        simp at hdm
        exact h3 hdm.symm
      · exact h0
    exact ⟨⟨h1, h2⟩, by rw [hchunk]; exact h2, by rw [hchunk]; exact hpos⟩

/-- The per-shift MOVN test, characterized: it accepts exactly the
complement of one full window. -/
theorem movnCheck_eq (w : Nat) (shifts : List Nat) (s u : Nat)
    (hs : s + 16 ≤ w) (hu : u < 2 ^ w) (hss : s ∈ shifts)
    (hts : ∀ t ∈ shifts, t + 16 ≤ w ∧ (t ≠ s → t + 16 ≤ s ∨ s + 16 ≤ t)) :
    movnCheck u (2 ^ w - 1) shifts s
      = decide (u = (2 ^ w - 1) ^^^ ((0xFFFF : Nat) <<< s)) := by
  have hmask : (2 : Nat) ^ w - 1 < 2 ^ w := by
    have := Nat.two_pow_pos w
    omega
  have hnv : (2 ^ w - 1) ^^^ u < 2 ^ w := nat_xor_lt_two_pow w _ _ hmask hu
  unfold movnCheck
  dsimp only
  rw [window_and_mask w s hs, extract_eq, Bool.eq_iff_iff, decide_eq_true_eq]
  constructor
  · intro h
    split_ifs at h with hA hB
    · -- the confinement, reconstruction and chunk-pattern checks all passed
      obtain ⟨hA1, _, hA3⟩ := hA
      obtain ⟨hc1, hc2⟩ := (other_bits_zero_iff w s ((2 ^ w - 1) ^^^ u) hs hnv).mp hA1
      rw [List.all_eq_true] at h
      have hself := h s hss
      unfold movnChunkOk at hself
      dsimp only at hself
      rw [window_and_mask w s hs, extract_eq, if_pos rfl] at hself
      have huchunk : chunkOf u s = 0xFFFF ^^^ chunkOf ((2 ^ w - 1) ^^^ u) s := by
        rw [← chunkOf_mask_xor w s hs, xor_xor_cancel]
      have hEfull : chunkOf ((2 ^ w - 1) ^^^ u) s = 0xFFFF := by
        split_ifs at hself with h1 h2
        · -- the countBits gate fired: the chunk of `u` must be 0 or full
          rw [decide_eq_true_eq,
            movn_gate (chunkOf u s) (chunkOf_lt u s)] at hself
          rcases hself with h0 | hfull
          · rw [h0] at huchunk
            have := xor_xor_cancel 0xFFFF (chunkOf ((2 ^ w - 1) ^^^ u) s)
            rw [← huchunk] at this
            simpa using this.symm
          · exact absurd hfull h2
        · -- the chunk of `u` is full, so the chunk of `~u` is 0: impossible
          exfalso
          push_neg at h2
          rw [h2] at huchunk
          have := xor_xor_cancel 0xFFFF (chunkOf ((2 ^ w - 1) ^^^ u) s)
          rw [← huchunk] at this
          simp at this
          rw [this] at hA3
          exact absurd hA3 (by simp)
      have hnveq : (2 ^ w - 1) ^^^ u = (0xFFFF : Nat) <<< s :=
        confined_eq_window _ s hc1 hc2 hEfull
      rw [← hnveq, xor_xor_cancel]
  · intro h
    subst h
    rw [xor_xor_cancel]
    have hA1 : ((0xFFFF : Nat) <<< s) &&& ((2 ^ w - 1) ^^^ ((0xFFFF : Nat) <<< s)) = 0 := by
      rw [other_bits_zero_iff w s _ hs (window_lt w s hs)]
      exact ⟨window_mod s, by rw [window_div s]⟩
    rw [chunkOf_shift_self, if_pos (by norm_num [hA1])]
    rw [if_pos (by constructor <;> rw [window_and_mask w s hs])]
    rw [List.all_eq_true]
    intro t ht
    obtain ⟨htw, hto⟩ := hts t ht
    unfold movnChunkOk
    dsimp only
    rw [window_and_mask w t htw, extract_eq, chunkOf_mask_xor w t htw]
    by_cases hteq : t = s
    · subst hteq
      rw [if_pos rfl, chunkOf_shift_self]
      norm_num
    · rw [if_neg hteq, chunkOf_shift_other s t (hto hteq)]
      norm_num

/-- Boolean dispatch of the two encodability loops as a disjunction. -/
theorem if_true_else_eq_or (a b : Bool) :
    (if a = true then true else b) = (a || b) := by
  cases a <;> simp

/-- The encodability test the source implements equals the
MOVZ-nonzero / full-chunk-complement rule, at both widths. -/
theorem isMovImmediateEncodable_eq (value : Int) (is64Bit : Bool) :
    isMovImmediateEncodable value is64Bit
      = (movzFormNonzero ((value.emod ((movMask is64Bit : Int) + 1)).toNat) is64Bit
          || movnFullChunk ((value.emod ((movMask is64Bit : Int) + 1)).toNat)
              is64Bit) := by
  cases is64Bit with
  | false =>
    have hcast : ((movMask false : Nat) : Int) + 1 = (2 : Int) ^ 32 := by
      norm_num [movMask]
    have hmask : movMask false = 2 ^ 32 - 1 := by norm_num [movMask]
    have hsh : movShifts false = [0, 16] := rfl
    unfold isMovImmediateEncodable movzFormNonzero movnFullChunk
    dsimp only
    rw [hcast, hmask, hsh]
    generalize hgen : (value.emod ((2 : Int) ^ 32)).toNat = u
    have hu : u < 2 ^ 32 := hgen ▸ toNat_emod_two_pow_lt value 32
    rw [if_true_else_eq_or]
    simp only [List.any_cons, List.any_nil, Bool.or_false]
    rw [movzCheck_eq 32 0 u (by omega) hu, movzCheck_eq 32 16 u (by omega) hu,
      movnCheck_eq 32 [0, 16] 0 u (by omega) hu (by decide) (by decide),
      movnCheck_eq 32 [0, 16] 16 u (by omega) hu (by decide) (by decide)]
  | true =>
    have hcast : ((movMask true : Nat) : Int) + 1 = (2 : Int) ^ 64 := by
      norm_num [movMask]
    have hmask : movMask true = 2 ^ 64 - 1 := by norm_num [movMask]
    have hsh : movShifts true = [0, 16, 32, 48] := rfl
    unfold isMovImmediateEncodable movzFormNonzero movnFullChunk
    dsimp only
    rw [hcast, hmask, hsh]
    generalize hgen : (value.emod ((2 : Int) ^ 64)).toNat = u
    have hu : u < 2 ^ 64 := hgen ▸ toNat_emod_two_pow_lt value 64
    rw [if_true_else_eq_or]
    simp only [List.any_cons, List.any_nil, Bool.or_false]
    rw [movzCheck_eq 64 0 u (by omega) hu, movzCheck_eq 64 16 u (by omega) hu,
      movzCheck_eq 64 32 u (by omega) hu, movzCheck_eq 64 48 u (by omega) hu,
      movnCheck_eq 64 [0, 16, 32, 48] 0 u (by omega) hu (by decide) (by decide),
      movnCheck_eq 64 [0, 16, 32, 48] 16 u (by omega) hu (by decide) (by decide),
      movnCheck_eq 64 [0, 16, 32, 48] 32 u (by omega) hu (by decide) (by decide),
      movnCheck_eq 64 [0, 16, 32, 48] 48 u (by omega) hu (by decide) (by decide)]

/-- `executeMov`'s immediate path as a single dispatch on the actual
encodability rule. -/
theorem executeMovImmediate_eq (r : RegFile) (dest : Reg) (imm : Int) :
    executeMovImmediate r dest imm
      = (if (movzFormNonzero
              ((imm.emod ((movMask (movIs64ForDest dest) : Int) + 1)).toNat)
              (movIs64ForDest dest)
            || movnFullChunk
              ((imm.emod ((movMask (movIs64ForDest dest) : Int) + 1)).toNat)
              (movIs64ForDest dest))
         then Except.ok (setRegisterValue r dest
                (imm.emod ((movMask (movIs64ForDest dest) : Int) + 1)))
         else Except.error
                "MOV immediate value cannot be encoded using MOVZ/MOVN") := by
  have hmm : (imm.emod (((movMask (movIs64ForDest dest) : Nat) : Int) + 1)).emod
      (((movMask (movIs64ForDest dest) : Nat) : Int) + 1)
      = imm.emod (((movMask (movIs64ForDest dest) : Nat) : Int) + 1) :=
    Int.emod_emod_of_dvd imm dvd_rfl
  unfold executeMovImmediate
  dsimp only
  rw [isMovImmediateEncodable_eq, hmm]
  by_cases h : (movzFormNonzero
      ((imm.emod (((movMask (movIs64ForDest dest) : Nat) : Int) + 1)).toNat)
      (movIs64ForDest dest)
    || movnFullChunk
      ((imm.emod (((movMask (movIs64ForDest dest) : Nat) : Int) + 1)).toNat)
      (movIs64ForDest dest)) = true
  · rw [h]
    simp
  · rw [Bool.not_eq_true] at h
    rw [h]
    simp

/-- C2 counterexample: the claim's general MOVZ/MOVN rule (formalized
from the spec's words as `movImmediateEncodableSpec`) accepts
`0xFFFFFFFFFFFFF` (its complement `0xFFF0000000000000` is a 16-bit value at
shift 48), yet the claim's own example, and the code, reject it; likewise
the rule accepts `-2` (complement `1`) while the code rejects it, because
the implementation's layered `countBits` gate only lets a MOVN form
through when the complement chunk is the full `0xFFFF`. -/
theorem claim_c2_counterexample :
    movImmediateEncodableSpec 0xFFFFFFFFFFFFF true = true ∧
    executeMovImmediate zeroRegs (Reg.gp false 0) 0xFFFFFFFFFFFFF
      = Except.error "MOV immediate value cannot be encoded using MOVZ/MOVN" ∧
    movImmediateEncodableSpec (-2) true = true ∧
    executeMovImmediate zeroRegs (Reg.gp false 0) (-2)
      = Except.error "MOV immediate value cannot be encoded using MOVZ/MOVN" :=
  ⟨by decide, rfl, by decide, rfl⟩

/-- C2 (amended): `mov dest, #v` succeeds — storing the width image of `v` —
iff that width image is nonzero and confined to a single allowed 16-bit
chunk (MOVZ form), or is the complement of one *full* `0xFFFF` chunk (the
only MOVN shapes the implementation's `countBits` gate accepts); otherwise
it fails with the encoding error.  The claim's examples hold:
`mov x0, #0x10000` succeeds and `mov x0, #0xFFFFFFFFFFFFF` fails. -/
theorem claim_c2_amended (r : RegFile) (dest : Reg) (imm : Int) :
    (executeMovImmediate r dest imm
        = Except.ok (setRegisterValue r dest
            (imm.emod ((movMask (movIs64ForDest dest) : Int) + 1)))
      ↔ (movzFormNonzero
            ((imm.emod ((movMask (movIs64ForDest dest) : Int) + 1)).toNat)
            (movIs64ForDest dest)
          || movnFullChunk
            ((imm.emod ((movMask (movIs64ForDest dest) : Int) + 1)).toNat)
            (movIs64ForDest dest)) = true) ∧
    (executeMovImmediate r dest imm
        = Except.error "MOV immediate value cannot be encoded using MOVZ/MOVN"
      ↔ (movzFormNonzero
            ((imm.emod ((movMask (movIs64ForDest dest) : Int) + 1)).toNat)
            (movIs64ForDest dest)
          || movnFullChunk
            ((imm.emod ((movMask (movIs64ForDest dest) : Int) + 1)).toNat)
            (movIs64ForDest dest)) = false) ∧
    executeMovImmediate r (Reg.gp false 0) 0x10000
      = Except.ok (setRegisterValue r (Reg.gp false 0) 0x10000) ∧
    executeMovImmediate r (Reg.gp false 0) 0xFFFFFFFFFFFFF
      = Except.error "MOV immediate value cannot be encoded using MOVZ/MOVN" := by
  refine ⟨?_, ?_, rfl, rfl⟩ <;>
    rw [executeMovImmediate_eq] <;>
    cases hB : (movzFormNonzero
        ((imm.emod ((movMask (movIs64ForDest dest) : Int) + 1)).toNat)
        (movIs64ForDest dest)
      || movnFullChunk
        ((imm.emod ((movMask (movIs64ForDest dest) : Int) + 1)).toNat)
        (movIs64ForDest dest)) <;>
    simp

/-- C2 amended witness: the success example, read off the amended theorem at
the all-zero register file. -/
theorem claim_c2_amended_witness :
    executeMovImmediate zeroRegs (Reg.gp false 0) 0x10000
      = Except.ok (setRegisterValue zeroRegs (Reg.gp false 0) 0x10000) :=
  (claim_c2_amended zeroRegs (Reg.gp false 0) 0x10000).2.2.1

/-! ## C3 — operand width and result masking -/

/-- C3 counterexample: (i) `sub x0, x1, x2` with `x1 = 0`, `x2 = 1` stores
the raw `-1` into `x0`, not the 64-bit masked difference `2^64 - 5`... i.e.
`2^64 - 1`; (ii) `adds x0, x1, w2` with `x1 = 2^32` stores `2^32` into `x0`
even though an operand register is the `w` view — the result is not masked to
32 bits, because the width is chosen from `src1` alone. -/
theorem claim_c3_counterexample :
    (∃ s', executeSub c3SubState c3SubOperands false = .ok s'
      ∧ s'.regs.x 0 = -1
      ∧ (-1 : Int) ≠ ((0 : Int) - 1).emod (2 ^ 64))
    ∧ (∃ s', executeArithmeticWithFlags c3MixedState c3MixedOperands .add true = .ok s'
      ∧ s'.regs.x 0 = 0x100000000
      ∧ ¬((0x100000000 : Int) < 2 ^ 32)) := by
  refine ⟨⟨_, rfl, ?_, by decide⟩, ⟨_, rfl, ?_, by decide⟩⟩
  · rfl
  · rfl

/-- A successful flag-setting arithmetic with a general-purpose destination
stores the masked result (further truncated to 32 bits by a `w`
destination's own store path). -/
theorem executeArithmeticWithFlags_write
    (s : SimState) (p : ArithOperands) (op : ArithOp) (s' : SimState)
    (src1 : Reg) (val2 : Int) (isW : Bool) (n : Fin 31)
    (hsrc1 : p.src1 = some src1) (hval2 : arithVal2 s p = some val2)
    (hdest : p.dest = some (.gp isW n))
    (hok : executeArithmeticWithFlags s p op true = .ok s') :
    s'.regs.x n =
      (if isW
        then ((arithResult op (arithSize src1)
          (maskedNat (getRegisterValue s.regs src1) (arithSize src1))
          (maskedNat val2 (arithSize src1)) : Nat) : Int).emod 0x100000000
        else ((arithResult op (arithSize src1)
          (maskedNat (getRegisterValue s.regs src1) (arithSize src1))
          (maskedNat val2 (arithSize src1)) : Nat) : Int)) := by
  unfold executeArithmeticWithFlags at hok
  rw [hsrc1] at hok
  dsimp only at hok
  rw [hval2] at hok
  dsimp only at hok
  rw [hdest] at hok
  simp only [if_true, reduceCtorEq, if_neg, ite_false] at hok
  rw [Except.ok.injEq] at hok
  subst hok
  cases isW
  · simp [setRegisterValue]
  · simp [setRegisterValue]

/-- A successful plain `add` with a general-purpose destination stores the
raw, unmasked `val1 + val2` (a `w` destination masks it to 32 bits on
store). -/
theorem executeAdd_write
    (s : SimState) (p : ArithOperands) (s' : SimState)
    (src1 : Reg) (val2 : Int) (isW : Bool) (n : Fin 31)
    (hsrc1 : p.src1 = some src1) (hlab : p.labelOp = none)
    (hval2 : arithVal2 s p = some val2)
    (hdest : p.dest = some (.gp isW n))
    (hok : executeAdd s p = .ok s') :
    s'.regs.x n =
      (if isW
        then (getRegisterValue s.regs src1 + val2).emod 0x100000000
        else getRegisterValue s.regs src1 + val2) := by
  unfold executeAdd at hok
  rw [hdest, hsrc1] at hok
  dsimp only at hok
  rcases himm : p.immediate with _ | imm
  · unfold arithVal2 at hval2
    rw [himm] at hval2
    dsimp only at hval2
    rw [himm, hlab] at hok
    dsimp only at hok
    rw [hval2] at hok
    dsimp only at hok
    rw [if_neg (by simp)] at hok
    rw [Except.ok.injEq] at hok
    subst hok
    cases isW
    · simp [setRegisterValue]
    · simp [setRegisterValue]
  · unfold arithVal2 at hval2
    rw [himm] at hval2
    dsimp only at hval2
    rw [Option.some.injEq] at hval2
    subst hval2
    rw [himm] at hok
    dsimp only at hok
    rw [if_neg (by simp)] at hok
    rw [Except.ok.injEq] at hok
    subst hok
    cases isW
    · simp [setRegisterValue]
    · simp [setRegisterValue]

/-- A successful plain `sub` with a general-purpose destination stores the
raw, unmasked `val1 - val2`. -/
theorem executeSub_write
    (s : SimState) (p : ArithOperands) (setFlags : Bool) (s' : SimState)
    (src1 : Reg) (val2 : Int) (isW : Bool) (n : Fin 31)
    (hsrc1 : p.src1 = some src1)
    (hval2 : arithVal2 s p = some val2)
    (hdest : p.dest = some (.gp isW n))
    (hok : executeSub s p setFlags = .ok s') :
    s'.regs.x n =
      (if isW
        then (getRegisterValue s.regs src1 - val2).emod 0x100000000
        else getRegisterValue s.regs src1 - val2) := by
  unfold executeSub at hok
  rw [hdest, hsrc1] at hok
  dsimp only at hok
  rw [hval2] at hok
  dsimp only at hok
  rw [if_neg (by simp)] at hok
  split at hok
  all_goals
    rw [Except.ok.injEq] at hok
    subst hok
    cases isW
  · simp [setRegisterValue]
  · simp [setRegisterValue]
  · simp [setRegisterValue]
  · simp [setRegisterValue]

/-- C3 amended: for the flag-setting arithmetic instructions the operand
width is 32 bits iff the *first source* register is the `w` view (`arithSize`),
and a general-purpose destination receives the result masked to that width
(then truncated to 32 bits when the destination itself is a `w` view); plain
`add`/`sub`, however, store the raw unmasked sum/difference into an `x`
destination (only a `w` destination masks, via its own store path). -/
theorem claim_c3_amended :
    (∀ src1N : Fin 31, arithSize (.gp true src1N) = 32 ∧ arithSize (.gp false src1N) = 64
      ∧ arithSize .sp = 64 ∧ arithSize .lr = 64)
    ∧ (∀ (s : SimState) (p : ArithOperands) (op : ArithOp) (s' : SimState)
        (src1 : Reg) (val2 : Int) (isW : Bool) (n : Fin 31),
      p.src1 = some src1 → arithVal2 s p = some val2 →
      p.dest = some (.gp isW n) →
      executeArithmeticWithFlags s p op true = .ok s' →
      s'.regs.x n =
        (if isW
          then ((arithResult op (arithSize src1)
            (maskedNat (getRegisterValue s.regs src1) (arithSize src1))
            (maskedNat val2 (arithSize src1)) : Nat) : Int).emod 0x100000000
          else ((arithResult op (arithSize src1)
            (maskedNat (getRegisterValue s.regs src1) (arithSize src1))
            (maskedNat val2 (arithSize src1)) : Nat) : Int)))
    ∧ (∀ (s : SimState) (p : ArithOperands) (s' : SimState)
        (src1 : Reg) (val2 : Int) (isW : Bool) (n : Fin 31),
      p.src1 = some src1 → p.labelOp = none → arithVal2 s p = some val2 →
      p.dest = some (.gp isW n) →
      executeAdd s p = .ok s' →
      s'.regs.x n =
        (if isW
          then (getRegisterValue s.regs src1 + val2).emod 0x100000000
          else getRegisterValue s.regs src1 + val2))
    ∧ (∀ (s : SimState) (p : ArithOperands) (setFlags : Bool) (s' : SimState)
        (src1 : Reg) (val2 : Int) (isW : Bool) (n : Fin 31),
      p.src1 = some src1 → arithVal2 s p = some val2 →
      p.dest = some (.gp isW n) →
      executeSub s p setFlags = .ok s' →
      s'.regs.x n =
        (if isW
          then (getRegisterValue s.regs src1 - val2).emod 0x100000000
          else getRegisterValue s.regs src1 - val2)) := by
  refine ⟨fun n => ⟨rfl, rfl, rfl, rfl⟩, ?_, ?_, ?_⟩
  · intro s p op s' src1 val2 isW n h1 h2 h3 h4
    exact executeArithmeticWithFlags_write s p op s' src1 val2 isW n h1 h2 h3 h4
  · intro s p s' src1 val2 isW n h1 h2 h3 h4 h5
    exact executeAdd_write s p s' src1 val2 isW n h1 h2 h3 h4 h5
  · intro s p setFlags s' src1 val2 isW n h1 h2 h3 h4
    exact executeSub_write s p setFlags s' src1 val2 isW n h1 h2 h3 h4

/-- Witness for C3 (amended) at `sub x0, x1, x2` on the concrete state. -/
theorem claim_c3_amended_witness :
    ∃ s', executeSub c3SubState c3SubOperands false = .ok s'
      ∧ s'.regs.x 0 = getRegisterValue c3SubState.regs (.gp false 1) - 1 := by
  refine ⟨_, rfl, ?_⟩
  have h := claim_c3_amended.2.2.2 c3SubState c3SubOperands false _
    (.gp false 1) 1 false 0 rfl rfl rfl rfl
  simpa using h

/-! ## C5 — sp arithmetic and stack-frame bookkeeping -/

/-- Insertion grows the list by one. -/
theorem length_insertFrameDesc (f : Frame) (l : List Frame) :
    (insertFrameDesc f l).length = l.length + 1 := by
  induction l with
  | nil => rfl
  | cons g t ih =>
    unfold insertFrameDesc
    by_cases h : f.sp < g.sp
    · rw [if_pos h]; simp [ih]
    · rw [if_neg h]; simp

/-- The stable sort preserves length. -/
theorem length_sortFramesDesc (l : List Frame) :
    (sortFramesDesc l).length = l.length := by
  induction l with
  | nil => rfl
  | cons g t ih =>
    show (insertFrameDesc g (sortFramesDesc t)).length = t.length + 1
    rw [length_insertFrameDesc, ih]

/-- Unfolding equation: insertion into a cons cell. -/
theorem insertFrameDesc_cons (f a : Frame) (t : List Frame) :
    insertFrameDesc f (a :: t) =
      if f.sp < a.sp then a :: insertFrameDesc f t else f :: a :: t := rfl

/-- Unfolding equation: after-ties insertion into a cons cell. -/
theorem insertFrameAfterTies_cons (g a : Frame) (t : List Frame) :
    insertFrameAfterTies g (a :: t) =
      if g.sp ≤ a.sp then a :: insertFrameAfterTies g t else g :: a :: t := rfl

/-- Appending one frame to a descending-sorted list and stable-sorting is
insertion after frames of equal `sp`. -/
theorem sortFramesDesc_append (F : List Frame) (g : Frame)
    (hs : List.Pairwise (fun a b => b.sp ≤ a.sp) F) :
    sortFramesDesc (F ++ [g]) = insertFrameAfterTies g F := by
  induction F with
  | nil => rfl
  | cons a t ih =>
    rw [List.pairwise_cons] at hs
    rw [List.cons_append]
    show insertFrameDesc a (sortFramesDesc (t ++ [g])) = insertFrameAfterTies g (a :: t)
    rw [ih hs.2, insertFrameAfterTies_cons]
    cases t with
    | nil =>
      show insertFrameDesc a [g] = _
      rw [insertFrameDesc_cons]
      by_cases hga : g.sp ≤ a.sp
      · rw [if_pos hga, if_neg (by omega)]
        rfl
      · rw [if_neg hga, if_pos (by omega)]
        rfl
    | cons b t' =>
      have hb : b.sp ≤ a.sp := hs.1 b (List.mem_cons_self b t')
      rw [insertFrameAfterTies_cons g b t']
      by_cases hga : g.sp ≤ a.sp
      · rw [if_pos hga]
        by_cases hgb : g.sp ≤ b.sp
        · rw [if_pos hgb, insertFrameDesc_cons, if_neg (by omega)]
        · rw [if_neg hgb, insertFrameDesc_cons, if_neg (by omega)]
      · rw [if_neg hga, if_neg (by omega), insertFrameDesc_cons, if_pos (by omega),
          insertFrameDesc_cons, if_neg (by omega)]

/-- Removing the inserted frame by exact search recovers the original list
when no original frame matches the search. -/
theorem insertFrameAfterTies_find_erase (g : Frame) (F : List Frame)
    (p : Frame → Bool) (hg : p g = true) (hnone : ∀ f ∈ F, p f = false) :
    ∃ i, (insertFrameAfterTies g F).findIdx? p = some i
      ∧ (insertFrameAfterTies g F).eraseIdx i = F := by
  induction F with
  | nil => exact ⟨0, by simp [insertFrameAfterTies, hg], by simp [insertFrameAfterTies]⟩
  | cons a t ih =>
    by_cases hga : g.sp ≤ a.sp
    · obtain ⟨i, hfind, herase⟩ := ih (fun f hf => hnone f (List.mem_cons_of_mem a hf))
      have hpa : p a = false := hnone a (List.mem_cons_self a t)
      refine ⟨i + 1, ?_, ?_⟩
      · show (insertFrameAfterTies g (a :: t)).findIdx? p = some (i + 1)
        simp only [insertFrameAfterTies, if_pos hga, List.findIdx?_cons, hpa,
          Bool.false_eq_true, if_false]
        rw [show (0 + 1 : Nat) = 0 + 1 from rfl, List.findIdx?_succ, hfind]
        rfl
      · show (insertFrameAfterTies g (a :: t)).eraseIdx (i + 1) = a :: t
        simp only [insertFrameAfterTies, if_pos hga, List.eraseIdx_cons_succ, herase]
    · refine ⟨0, ?_, ?_⟩
      · show (insertFrameAfterTies g (a :: t)).findIdx? p = some 0
        simp only [insertFrameAfterTies, if_neg hga, List.findIdx?_cons, hg, if_true]
      · show (insertFrameAfterTies g (a :: t)).eraseIdx 0 = a :: t
        simp only [insertFrameAfterTies, if_neg hga, List.eraseIdx_cons_zero]

/-- `destroyStackFrame` after the matching `createStackFrame` restores the
original frame list exactly, provided no pre-existing frame carries the same
`(sp, size)` pair. -/
theorem destroyStackFrame_restores (s : SimState) (g : Frame) (F : List Frame)
    (newSP size : Int)
    (hL : s.stackFrames = insertFrameAfterTies g F)
    (hsp : newSP - size = g.sp) (hsz : size = g.size)
    (hnone : ∀ f ∈ F, ¬(f.sp = g.sp ∧ f.size = g.size)) :
    (destroyStackFrame s newSP size).stackFrames = F := by
  obtain ⟨i, hfind, herase⟩ := insertFrameAfterTies_find_erase g F
    (fun f => decide (f.sp = newSP - size ∧ f.size = size))
    (by simp [← hsp, ← hsz]) (by
      intro f hf
      have := hnone f hf
      simp [← hsp, ← hsz] at this ⊢
      tauto)
  unfold destroyStackFrame
  rw [hL]
  dsimp only
  rw [hfind]
  exact herase

/-- A `destroyStackFrame` removes exactly one record from a nonempty list
and leaves an empty list empty. -/
theorem destroyStackFrame_length (s : SimState) (newSP size : Int) :
    (destroyStackFrame s newSP size).stackFrames.length = s.stackFrames.length - 1
    ∧ (s.stackFrames = [] → (destroyStackFrame s newSP size).stackFrames = []) := by
  constructor
  · unfold destroyStackFrame
    dsimp only
    split
    · rename_i i hfind
      have hi := (List.findIdx?_eq_some_iff_findIdx_eq.mp hfind).1
      simp [List.length_eraseIdx_of_lt hi]
    · simp [List.length_tail, length_sortFramesDesc]
  · intro h
    unfold destroyStackFrame
    rw [h]
    rfl

/-- Truncated mod 16 of a nonnegative value is its Euclidean mod 16. -/
theorem tmod16_of_nonneg {a : Int} (h : 0 ≤ a) : a.tmod 16 = a % 16 :=
  Int.tmod_eq_emod h (by norm_num)

/-- C5 counterexample: (a) a successful `add sp, sp, #16` from the reset
state (empty frame list) destroys no frame record; (b) `sub sp, sp, #16`
with `sp = 0` fails fatally even though the operand is a multiple of 16 and
the resulting `sp` would be 16-byte aligned (the negative-`sp` guard); (c)
from a reachable state with a stale frame of the same `(sp, size)`, the
`sub`/`add` pair restores `sp` but returns a *different* frame list (the
exact-match removal deletes the stale frame, leaving the fresh one with a
different id). -/
theorem claim_c5_counterexample :
    (∃ s', executeAdd sampleState sp16Operands = .ok s'
      ∧ sampleState.stackFrames = [] ∧ s'.stackFrames = [])
    ∧ ((∀ s', executeSub c5ZeroSpState sp16Operands false ≠ .ok s')
      ∧ (16 : Int).tmod 16 = 0 ∧ ((0 : Int) - 16).tmod 16 = 0)
    ∧ (∃ s1 s2, executeSub c5DupState sp16Operands false = .ok s1
      ∧ executeAdd s1 sp16Operands = .ok s2
      ∧ s2.regs.sp = c5DupState.regs.sp
      ∧ s2.stackFrames ≠ c5DupState.stackFrames) := by
  refine ⟨⟨_, rfl, rfl, rfl⟩, ⟨?_, by decide, by decide⟩, ⟨_, _, rfl, rfl, rfl, by decide⟩⟩
  intro s' h
  rw [show executeSub c5ZeroSpState sp16Operands false = Except.error "stack overflow"
    from rfl] at h
  exact Except.noConfusion h

/-- A successful `sub` targeting `sp` exists iff the operand is a multiple
of 16, the new `sp` is 16-byte aligned, and the new `sp` is nonnegative. -/
theorem executeSub_sp_iff (s : SimState) (p : ArithOperands) (setFlags : Bool)
    (src1 : Reg) (v : Int)
    (hdest : p.dest = some .sp) (hsrc1 : p.src1 = some src1)
    (hval2 : arithVal2 s p = some v) :
    ((∃ s', executeSub s p setFlags = .ok s') ↔
      (v.tmod 16 = 0 ∧ (getRegisterValue s.regs src1 - v).tmod 16 = 0
        ∧ 0 ≤ getRegisterValue s.regs src1 - v)) := by
  unfold executeSub
  rw [hdest, hsrc1]
  dsimp only
  rw [hval2]
  dsimp only
  rw [if_pos rfl]
  by_cases h1 : v.tmod 16 = 0
  · rw [if_neg (by simp [h1])]
    by_cases h2 : (getRegisterValue s.regs src1 - v).tmod 16 = 0
    · rw [if_neg (by simp [h2])]
      by_cases h3 : getRegisterValue s.regs src1 - v < 0
      · rw [if_pos h3]
        simp [h1, h2]
        omega
      · rw [if_neg h3]
        simp [h1, h2]
        omega
    · rw [if_pos (by simp [h2])]
      simp [h2]
  · rw [if_pos (by simp [h1])]
    simp [h1]

/-- A successful `add` targeting `sp` exists iff the operand is a multiple
of 16 and the new `sp` is 16-byte aligned (no nonnegativity guard). -/
theorem executeAdd_sp_iff (s : SimState) (p : ArithOperands)
    (src1 : Reg) (v : Int)
    (hdest : p.dest = some .sp) (hsrc1 : p.src1 = some src1)
    (himm : p.immediate = some v) :
    ((∃ s', executeAdd s p = .ok s') ↔
      (v.tmod 16 = 0 ∧ (getRegisterValue s.regs src1 + v).tmod 16 = 0)) := by
  unfold executeAdd
  rw [hdest, hsrc1]
  dsimp only
  rw [himm]
  dsimp only
  rw [if_pos rfl]
  by_cases h1 : v.tmod 16 = 0
  · rw [if_neg (by simp [h1])]
    by_cases h2 : (getRegisterValue s.regs src1 + v).tmod 16 = 0
    · rw [if_neg (by simp [h2])]
      simp [h1, h2]
    · rw [if_pos (by simp [h2])]
      simp [h2]
  · rw [if_pos (by simp [h1])]
    simp [h1]

/-- A successful `adds` targeting `sp` exists under the same conditions as
`add`. -/
theorem executeAdds_sp_iff (s : SimState) (p : ArithOperands)
    (src1 : Reg) (v : Int)
    (hdest : p.dest = some .sp) (hsrc1 : p.src1 = some src1)
    (hval2 : arithVal2 s p = some v) :
    ((∃ s', executeArithmeticWithFlags s p .add true = .ok s') ↔
      (v.tmod 16 = 0 ∧ (getRegisterValue s.regs src1 + v).tmod 16 = 0)) := by
  unfold executeArithmeticWithFlags
  rw [hsrc1]
  dsimp only
  rw [hval2]
  dsimp only
  rw [hdest]
  dsimp only
  rw [if_pos rfl, if_pos rfl]
  by_cases h1 : v.tmod 16 = 0
  · rw [if_neg (by simp [h1])]
    by_cases h2 : (getRegisterValue s.regs src1 + v).tmod 16 = 0
    · rw [if_neg (by simp [h2])]
      simp [h1, h2]
    · rw [if_pos (by simp [h2])]
      simp [h2]
  · rw [if_pos (by simp [h1])]
    simp [h1]

/-- A successful `subs` targeting `sp` exists under the same conditions as
`sub` (including the nonnegativity guard). -/
theorem executeSubs_sp_iff (s : SimState) (p : ArithOperands)
    (src1 : Reg) (v : Int)
    (hdest : p.dest = some .sp) (hsrc1 : p.src1 = some src1)
    (hval2 : arithVal2 s p = some v) :
    ((∃ s', executeArithmeticWithFlags s p .sub true = .ok s') ↔
      (v.tmod 16 = 0 ∧ (getRegisterValue s.regs src1 - v).tmod 16 = 0
        ∧ 0 ≤ getRegisterValue s.regs src1 - v)) := by
  unfold executeArithmeticWithFlags
  rw [hsrc1]
  dsimp only
  rw [hval2]
  dsimp only
  rw [hdest]
  dsimp only
  rw [if_pos rfl, if_pos rfl]
  by_cases h1 : v.tmod 16 = 0
  · rw [if_neg (by simp [h1])]
    by_cases h2 : (getRegisterValue s.regs src1 - v).tmod 16 = 0
    · rw [if_neg (by simp [h2])]
      by_cases h3 : getRegisterValue s.regs src1 - v < 0
      · rw [if_pos h3]
        simp [h1, h2]
        omega
      · rw [if_neg h3]
        simp [h1, h2]
        omega
    · rw [if_pos (by simp [h2])]
      simp [h2]
  · rw [if_pos (by simp [h1])]
    simp [h1]

/-- A successful `sub sp` pushes exactly one new frame record. -/
theorem executeSub_sp_creates (s : SimState) (p : ArithOperands)
    (setFlags : Bool) (s' : SimState) (src1 : Reg) (v : Int)
    (hdest : p.dest = some .sp) (hsrc1 : p.src1 = some src1)
    (hval2 : arithVal2 s p = some v)
    (hok : executeSub s p setFlags = .ok s') :
    s'.stackFrames.length = s.stackFrames.length + 1 := by
  unfold executeSub at hok
  rw [hdest, hsrc1] at hok
  dsimp only at hok
  rw [hval2] at hok
  dsimp only at hok
  rw [if_pos rfl] at hok
  split at hok
  · exact absurd hok (by simp)
  · split at hok
    · exact absurd hok (by simp)
    · split at hok
      · exact absurd hok (by simp)
      · rw [Except.ok.injEq] at hok
        subst hok
        show (sortFramesDesc (s.stackFrames ++ [_])).length = _
        rw [length_sortFramesDesc]
        simp

/-- A successful `add sp` removes one frame record when any exists, and none
from an empty list. -/
theorem executeAdd_sp_destroys (s : SimState) (p : ArithOperands)
    (s' : SimState) (src1 : Reg) (v : Int)
    (hdest : p.dest = some .sp) (hsrc1 : p.src1 = some src1)
    (himm : p.immediate = some v)
    (hok : executeAdd s p = .ok s') :
    s'.stackFrames.length = s.stackFrames.length - 1
    ∧ (s.stackFrames = [] → s'.stackFrames = []) := by
  unfold executeAdd at hok
  rw [hdest, hsrc1] at hok
  dsimp only at hok
  rw [himm] at hok
  dsimp only at hok
  rw [if_pos rfl] at hok
  split at hok
  · exact absurd hok (by simp)
  · split at hok
    · exact absurd hok (by simp)
    · rw [Except.ok.injEq] at hok
      subst hok
      exact destroyStackFrame_length _ _ _

/-- C5 amended, pair part: from any state whose `sp` is 16-byte aligned and
at least 16, whose frame list is descending-sorted (every reachable list is),
and which holds no frame record with `sp` = old `sp` − 16 and size 16, the
pair `sub sp, sp, #16; add sp, sp, #16` succeeds, restores `sp`, and leaves
the stack-frame list exactly as it was. -/
theorem c5_sub_step (s : SimState) (X : Int)
    (hsp : s.regs.sp = X) (hsub16 : (X - 16).tmod 16 = 0) (h16 : 16 ≤ X) :
    executeSub s sp16Operands false =
      .ok (createStackFrame { s with regs := setRegisterValue s.regs Reg.sp (X - 16) }
        (X - 16) 16) := by
  unfold executeSub
  dsimp only [sp16Operands, arithVal2]
  rw [if_pos rfl, if_neg (by decide)]
  rw [show getRegisterValue s.regs Reg.sp = X from hsp]
  rw [if_neg (by simp [hsub16]), if_neg (by omega)]

/-- The `add sp, sp, #16` step of the pair, from any state whose new `sp`
would be aligned. -/
theorem c5_add_step (s1 : SimState) (Y : Int)
    (hsp1 : s1.regs.sp = Y) (halignY : (Y + 16).tmod 16 = 0) :
    executeAdd s1 sp16Operands =
      .ok (destroyStackFrame { s1 with regs := setRegisterValue s1.regs Reg.sp (Y + 16) }
        (Y + 16) 16) := by
  unfold executeAdd
  dsimp only [sp16Operands]
  rw [if_pos rfl, if_neg (by decide)]
  rw [show getRegisterValue s1.regs Reg.sp = Y from hsp1]
  rw [if_neg (by simp [halignY])]

/-- `destroyStackFrame` never touches the registers. -/
theorem destroyStackFrame_regs (T : SimState) (a b : Int) :
    (destroyStackFrame T a b).regs = T.regs := by
  unfold destroyStackFrame
  dsimp only
  split <;> rfl

/-- C5 amended, pair part: from any state whose `sp` is 16-byte aligned and
at least 16, whose frame list is descending-sorted (every reachable list is),
and which holds no frame record with `sp` = old `sp` − 16 and size 16, the
pair `sub sp, sp, #16; add sp, sp, #16` succeeds, restores `sp`, and leaves
the stack-frame list exactly as it was. -/
theorem c5_pair_restores (s : SimState) (X : Int)
    (hsp : s.regs.sp = X) (halign : X.tmod 16 = 0) (h16 : 16 ≤ X)
    (hsorted : List.Pairwise (fun a b => b.sp ≤ a.sp) s.stackFrames)
    (hnone : ∀ f ∈ s.stackFrames, ¬(f.sp = X - 16 ∧ f.size = 16)) :
    ∃ s1 s2, executeSub s sp16Operands false = .ok s1
      ∧ executeAdd s1 sp16Operands = .ok s2
      ∧ s2.regs.sp = X ∧ s2.stackFrames = s.stackFrames := by
  have hX0 : (0 : Int) ≤ X := by omega
  have hXemod : X % 16 = 0 := by rw [← tmod16_of_nonneg hX0]; exact halign
  have hsub16 : (X - 16).tmod 16 = 0 := by
    rw [tmod16_of_nonneg (by omega)]
    omega
  have hsub := c5_sub_step s X hsp hsub16 h16
  have hsp1 : (createStackFrame
      { s with regs := setRegisterValue s.regs Reg.sp (X - 16) }
      (X - 16) 16).regs.sp = X - 16 := rfl
  have hadd := c5_add_step
    (createStackFrame { s with regs := setRegisterValue s.regs Reg.sp (X - 16) }
      (X - 16) 16) (X - 16) hsp1
    (by rw [show X - 16 + 16 = X by ring]; exact halign)
  refine ⟨_, _, hsub, hadd, ?_, ?_⟩
  · rw [destroyStackFrame_regs]
    show X - 16 + 16 = X
    ring
  · refine destroyStackFrame_restores _
      { id := s.nextFrameId, sp := X - 16, size := 16, top := X - 16 + 16 }
      s.stackFrames (X - 16 + 16) 16 ?_ (by ring) rfl ?_
    · show (createStackFrame
        { s with regs := setRegisterValue s.regs Reg.sp (X - 16) }
        (X - 16) 16).stackFrames = _
      show sortFramesDesc (s.stackFrames ++
        [{ id := s.nextFrameId, sp := X - 16, size := 16, top := X - 16 + 16 }]) = _
      exact sortFramesDesc_append s.stackFrames _ hsorted
    · intro f hf
      simpa using hnone f hf

/-- C5 amended: the `sub sp,#16; add sp,#16` pair restores `sp` and the frame
list exactly, from any 16-aligned `sp ≥ 16` whose sorted frame list holds no
record with the pair's `(sp − 16, 16)` shape; every `add`/`sub`/`adds`/`subs`
targeting `sp` fails fatally unless the operand is a multiple of 16 and the
resulting `sp` is 16-byte aligned, with the two subtracting forms also
requiring the resulting `sp` to be nonnegative; a successful `sub sp` creates
exactly one frame record, and a successful `add sp` destroys exactly one when
any exists (and none from an empty list). -/
theorem claim_c5_amended :
    (∀ (s : SimState) (X : Int),
      s.regs.sp = X → X.tmod 16 = 0 → 16 ≤ X →
      List.Pairwise (fun a b => b.sp ≤ a.sp) s.stackFrames →
      (∀ f ∈ s.stackFrames, ¬(f.sp = X - 16 ∧ f.size = 16)) →
      ∃ s1 s2, executeSub s sp16Operands false = .ok s1
        ∧ executeAdd s1 sp16Operands = .ok s2
        ∧ s2.regs.sp = X ∧ s2.stackFrames = s.stackFrames)
    ∧ (∀ (s : SimState) (p : ArithOperands) (setFlags : Bool) (src1 : Reg) (v : Int),
      p.dest = some .sp → p.src1 = some src1 → arithVal2 s p = some v →
      ((∃ s', executeSub s p setFlags = .ok s') ↔
        (v.tmod 16 = 0 ∧ (getRegisterValue s.regs src1 - v).tmod 16 = 0
          ∧ 0 ≤ getRegisterValue s.regs src1 - v)))
    ∧ (∀ (s : SimState) (p : ArithOperands) (src1 : Reg) (v : Int),
      p.dest = some .sp → p.src1 = some src1 → p.immediate = some v →
      ((∃ s', executeAdd s p = .ok s') ↔
        (v.tmod 16 = 0 ∧ (getRegisterValue s.regs src1 + v).tmod 16 = 0)))
    ∧ (∀ (s : SimState) (p : ArithOperands) (src1 : Reg) (v : Int),
      p.dest = some .sp → p.src1 = some src1 → arithVal2 s p = some v →
      (((∃ s', executeArithmeticWithFlags s p .add true = .ok s') ↔
        (v.tmod 16 = 0 ∧ (getRegisterValue s.regs src1 + v).tmod 16 = 0))
      ∧ ((∃ s', executeArithmeticWithFlags s p .sub true = .ok s') ↔
        (v.tmod 16 = 0 ∧ (getRegisterValue s.regs src1 - v).tmod 16 = 0
          ∧ 0 ≤ getRegisterValue s.regs src1 - v))))
    ∧ (∀ (s : SimState) (p : ArithOperands) (setFlags : Bool) (s' : SimState)
        (src1 : Reg) (v : Int),
      p.dest = some .sp → p.src1 = some src1 → arithVal2 s p = some v →
      executeSub s p setFlags = .ok s' →
      s'.stackFrames.length = s.stackFrames.length + 1)
    ∧ (∀ (s : SimState) (p : ArithOperands) (s' : SimState) (src1 : Reg) (v : Int),
      p.dest = some .sp → p.src1 = some src1 → p.immediate = some v →
      executeAdd s p = .ok s' →
      (s'.stackFrames.length = s.stackFrames.length - 1
        ∧ (s.stackFrames = [] → s'.stackFrames = []))) := by
  refine ⟨?_, ?_, ?_, ?_, ?_, ?_⟩
  · intro s X h1 h2 h3 h4 h5
    exact c5_pair_restores s X h1 h2 h3 h4 h5
  · intro s p setFlags src1 v h1 h2 h3
    exact executeSub_sp_iff s p setFlags src1 v h1 h2 h3
  · intro s p src1 v h1 h2 h3
    exact executeAdd_sp_iff s p src1 v h1 h2 h3
  · intro s p src1 v h1 h2 h3
    exact ⟨executeAdds_sp_iff s p src1 v h1 h2 h3,
      executeSubs_sp_iff s p src1 v h1 h2 h3⟩
  · intro s p setFlags s' src1 v h1 h2 h3 h4
    exact executeSub_sp_creates s p setFlags s' src1 v h1 h2 h3 h4
  · intro s p s' src1 v h1 h2 h3 h4
    exact executeAdd_sp_destroys s p s' src1 v h1 h2 h3 h4

/-- Witness for C5 (amended): the pair run from the reset state. -/
theorem claim_c5_amended_witness :
    ∃ s1 s2, executeSub sampleState sp16Operands false = .ok s1
      ∧ executeAdd s1 sp16Operands = .ok s2
      ∧ s2.regs.sp = initialSp ∧ s2.stackFrames = sampleState.stackFrames :=
  claim_c5_amended.1 sampleState initialSp rfl (by decide) (by decide)
    (by simp [sampleState]) (by simp [sampleState])

/-! ## C4 — ret semantics -/

/-- The scan of `findInstructionIndexByAddress` returns either an index
below `i + length` or the fallback 0. -/
theorem findInstrIdxAux_bound (addr : Int) :
    ∀ (l : List Instr) (i : Nat),
      findInstrIdxAux addr i l ≤ i + l.length - 1 ∨ findInstrIdxAux addr i l = 0 := by
  intro l
  induction l with
  | nil => intro i; exact Or.inr rfl
  | cons a t ih =>
    intro i
    unfold findInstrIdxAux
    by_cases h1 : a.address = addr
    · rw [if_pos h1]; left; simp
    · rw [if_neg h1]
      by_cases h2 : a.address > addr
      · rw [if_pos h2]
        by_cases h3 : i > 0
        · rw [if_pos h3]; left; simp
          omega
        · rw [if_neg h3]; right; rfl
      · rw [if_neg h2]
        rcases ih (i + 1) with h | h
        · left; simp at h ⊢; omega
        · right; exact h

/-- For a nonempty program, `findInstructionIndexByAddress` always yields a
valid index — so the source's out-of-range halt check after it can never
fire. -/
theorem findInstructionIndexByAddress_lt (instrs : List Instr) (addr : Int)
    (h : instrs ≠ []) :
    findInstructionIndexByAddress instrs addr < instrs.length := by
  have hb := findInstrIdxAux_bound addr instrs 0
  have hlen : 1 ≤ instrs.length := by
    cases instrs
    · exact absurd rfl h
    · simp
  unfold findInstructionIndexByAddress
  rcases hb with h1 | h1
  · omega
  · omega

/-- C4 counterexample: in a loaded program with entry function `_start`
(indices 0–1), a `ret` at index 2 with `x30 = 0x1000` — an address outside
the resolved instruction set — does *not* halt: it returns "continue" with
`pc := 0x1000` (and the cursor clamped to instruction 0), contradicting the
claim that such a return address causes a clean program halt. -/
theorem claim_c4_counterexample :
    (∀ ins ∈ c4State.instructions, ins.address ≠ 0x1000)
    ∧ c4State.entryPointLabel.isSome = true
    ∧ getRegisterValue c4State.regs (.gp false 30) = 0x1000
    ∧ (executeRet c4State none).1 = true
    ∧ (executeRet c4State none).2.regs.pc = 0x1000
    ∧ (executeRet c4State none).2.currentInstructionIndex = 0 := by
  exact ⟨by decide, rfl, rfl, rfl, rfl, rfl⟩

/-- C4 amended: a `ret` inside the recorded entry function's index range
halts unconditionally with PC := 0 regardless of `x30`; outside it, a zero
or negative return address halts cleanly; but *any* positive return address
— in range or not — transfers control, setting PC to it and the cursor to
the clamped index `findInstructionIndexByAddress` produces (which is always
valid for a nonempty program, so the out-of-range halt is unreachable). -/
theorem claim_c4_amended :
    (∀ (s : SimState) (src : Option Reg),
      s.entryPointLabel.isSome → 0 ≤ s.entryPointAddress →
      findInstructionIndexByAddress s.instructions s.entryPointAddress
        ≤ findInstructionIndexByAddress s.instructions s.regs.pc →
      (findInstructionIndexByAddress s.instructions s.regs.pc : Int)
        < s.entryFunctionEndIndex →
      s.entryPointAddress ≤ s.regs.pc →
      executeRet s src = (false, { s with regs := { s.regs with pc := 0 } }))
    ∧ (∀ (s : SimState) (src : Option Reg),
      ¬((s.entryPointLabel.isSome ∧ 0 ≤ s.entryPointAddress) ∧
        (findInstructionIndexByAddress s.instructions s.entryPointAddress
          ≤ findInstructionIndexByAddress s.instructions s.regs.pc
        ∧ (findInstructionIndexByAddress s.instructions s.regs.pc : Int)
          < s.entryFunctionEndIndex
        ∧ s.entryPointAddress ≤ s.regs.pc)) →
      executeRet s src = executeRetNormal s src)
    ∧ (∀ (s : SimState) (src : Option Reg) (retAddr : Int),
      (retAddr = match src with
        | some r => getRegisterValue s.regs r
        | none => getRegisterValue s.regs (.gp false 30)) →
      retAddr ≤ 0 →
      executeRetNormal s src = (false, { s with regs := { s.regs with pc := 0 } }))
    ∧ (∀ (s : SimState) (src : Option Reg) (retAddr : Int),
      (retAddr = match src with
        | some r => getRegisterValue s.regs r
        | none => getRegisterValue s.regs (.gp false 30)) →
      0 < retAddr → s.instructions ≠ [] →
      executeRetNormal s src = (true, { s with
        regs := { s.regs with pc := retAddr },
        currentInstructionIndex :=
          findInstructionIndexByAddress s.instructions retAddr })) := by
  refine ⟨?_, ?_, ?_, ?_⟩
  · intro s src h1 h2 h3 h4 h5
    unfold executeRet
    rw [if_pos ⟨h1, h2⟩, if_pos ⟨h3, h4, h5⟩]
  · intro s src hno
    unfold executeRet
    by_cases houter : s.entryPointLabel.isSome ∧ 0 ≤ s.entryPointAddress
    · rw [if_pos houter, if_neg (fun hinner => hno ⟨houter, hinner⟩)]
    · rw [if_neg houter]
  · intro s src retAddr hret hle
    unfold executeRetNormal
    rw [← hret, if_pos (by omega)]
  · intro s src retAddr hret hpos hne
    unfold executeRetNormal
    rw [← hret, if_neg (by omega),
      if_neg (by simpa using findInstructionIndexByAddress_lt s.instructions retAddr hne)]

/-- Witness for C4 (amended): a `ret` at index 0, inside the entry range,
halts with PC := 0 even though `x30 = 0x1000`. -/
theorem claim_c4_amended_witness :
    executeRet c4HaltState none =
      (false, { c4HaltState with regs := { c4HaltState.regs with pc := 0 } }) :=
  claim_c4_amended.1 c4HaltState none (by decide) (by decide) (by decide)
    (by decide) (by decide)

/-! ## C8 — Pass 2 and labeled instruction lines -/

/-- C8: Pass 2 does NOT emit one entry per text instruction line.  On the
program `foo: ret`, Pass 1 records `foo` at address 0 and counts the line
as one 4-byte instruction (text counter 4), but Pass 2 hands the whole
label-bearing line to `parseInstruction`, whose first token `foo:` is no
known opcode, so the parse returns `null` and no entry is emitted (and the
Pass-2 counter stays 0) — while the same program with the label on its own
line yields the expected single entry at address 0.  With a second `ret`
line appended, Pass 2 emits that line at address 0 although Pass 1's
counter assigned it address 4. -/
theorem claim_c8_labeled_instruction_dropped :
    buildSymbolTable ["foo: ret"]
      = some { symbolTable := [("foo", fooLabel)], textCounter := 4 } ∧
    parseProgram ["foo: ret"]
      = some { instructions := [], textCounter := 0 } ∧
    parseInstruction "foo: ret" = none ∧
    parseInstruction "ret" = some retParsed ∧
    parseProgram ["foo:", "ret"]
      = some { instructions := [retEntry0], textCounter := 4 } ∧
    buildSymbolTable ["foo: ret", "ret"]
      = some { symbolTable := [("foo", fooLabel)], textCounter := 8 } ∧
    parseProgram ["foo: ret", "ret"]
      = some { instructions := [retEntry0], textCounter := 4 } := by
  decide

/-! ## C9 — untouched memory reads as zero -/

/-- The gather loop over never-written bytes yields zero. -/
theorem readBytes_eq_zero_of_untouched (m : MemMap) (addr : Int) :
    ∀ (k : Nat), (∀ i : Nat, i < k → memGet m (addr + i) = none) →
      readBytes m addr k = 0 := by
  intro k
  induction k with
  | zero => intro _; rfl
  | succ n ih =>
    intro h
    show readBytes m addr n ||| (((memGet m (addr + n)).getD 0) <<< (8 * n)) = 0
    rw [h n (Nat.lt_succ_self n), ih (fun i hi => h i (Nat.lt_succ_of_lt hi))]
    simp

/-- C9: a read whose range validates and none of whose bytes were ever
written returns zero — all simulated memory reads as zero-initialized until
first touched. -/
theorem claim_c9_untouched_reads_zero :
    ∀ (m : MemMap) (sp addr : Int) (size : Nat) (region : Region),
      validateMemoryAccess sp addr size false = .ok region →
      (∀ i : Nat, i < size → memGet m (addr + i) = none) →
      readMemory m sp addr size = .ok 0 := by
  intro m sp addr size region hval huntouched
  unfold readMemory
  rw [hval, readBytes_eq_zero_of_untouched m addr size huntouched]
  norm_num

/-- Witness for C9: an 8-byte read of never-written `data`-region memory. -/
theorem claim_c9_untouched_reads_zero_witness :
    readMemory [] 0 0x00200000 8 = .ok 0 := by
  refine claim_c9_untouched_reads_zero [] 0 0x00200000 8
    { key := "data", startAddr := 0x00200000, endAddr := 0x002FFFFF, readonly := false }
    (by rfl) ?_
  intro i _
  rfl

/-! ## C6 — accesses must fit one region, no partial writes -/

/-- `getMemoryRegion` only returns a region of the layout that contains the
address. -/
theorem getMemoryRegion_spec {addr : Int} {r : Region}
    (h : getMemoryRegion addr = some r) :
    r ∈ memoryLayout ∧ r.startAddr ≤ addr ∧ addr ≤ r.endAddr := by
  refine ⟨List.mem_of_find?_eq_some h, ?_⟩
  have hp := List.find?_some h
  simpa using of_decide_eq_true hp

/-- Any access whose byte range is not contained in a single region fails
validation. -/
theorem validate_fails_outside_region
    (sp addr : Int) (size : Nat) (isWrite : Bool)
    (hno : ∀ r ∈ memoryLayout,
      ¬(r.startAddr ≤ addr ∧ addr + ((size : Int) - 1) ≤ r.endAddr)) :
    ∃ e, validateMemoryAccess sp addr size isWrite = .error e := by
  unfold validateMemoryAccess
  by_cases h1 : addr = 0 ∨ (addr < 0x00100000 ∧ addr > 0)
  · rw [if_pos h1]; exact ⟨_, rfl⟩
  · rw [if_neg h1]
    by_cases h2 : addr < 0x00100000 ∨ addr + ((size : Int) - 1) > 0x07FFFFFF
    · rw [if_pos h2]; exact ⟨_, rfl⟩
    · rw [if_neg h2]
      cases hreg : getMemoryRegion addr with
      | none => exact ⟨_, rfl⟩
      | some region =>
        have hspec := getMemoryRegion_spec hreg
        have hcross : addr + ((size : Int) - 1) > region.endAddr := by
          have := hno region hspec.1
          push_neg at this
          exact this hspec.2.1
        dsimp only
        rw [if_pos hcross]
        exact ⟨_, rfl⟩

/-- C6: a 1/2/4/8-byte access whose range does not lie inside one of the
five regions (zero page, unmapped, or boundary-crossing) fails validation,
and a failed write — with or without the initialization-time read-only
bypass — leaves every byte of memory untouched. -/
theorem claim_c6_access_in_one_region :
    ∀ (sp addr : Int) (size : Nat) (isWrite : Bool) (m : MemMap) (value : Int),
      (size = 1 ∨ size = 2 ∨ size = 4 ∨ size = 8) →
      (∀ r ∈ memoryLayout,
        ¬(r.startAddr ≤ addr ∧ addr + ((size : Int) - 1) ≤ r.endAddr)) →
      (∃ e, validateMemoryAccess sp addr size isWrite = .error e)
      ∧ (writeMemory m sp addr value size false).2 = m
      ∧ (writeMemory m sp addr value size true).2 = m := by
  intro sp addr size isWrite m value _hsize hno
  have hval := validate_fails_outside_region sp addr size true hno
  refine ⟨validate_fails_outside_region sp addr size isWrite hno, ?_, ?_⟩
  · obtain ⟨e, he⟩ := hval
    unfold writeMemory
    rw [if_pos rfl, he]
  · unfold writeMemory
    rw [if_neg (by simp)]
    by_cases h1 : addr = 0 ∨ (addr < 0x00100000 ∧ addr > 0)
    · rw [if_pos h1]
    · rw [if_neg h1]
      by_cases h2 : addr < 0x00100000 ∨ addr + ((size : Int) - 1) > 0x07FFFFFF
      · rw [if_pos h2]
      · rw [if_neg h2]
        cases hreg : getMemoryRegion addr with
        | none => rfl
        | some region =>
          have hspec := getMemoryRegion_spec hreg
          have hcross : addr + ((size : Int) - 1) > region.endAddr := by
            have := hno region hspec.1
            push_neg at this
            exact this hspec.2.1
          dsimp only
          rw [if_pos hcross]

/-- Witness for C6: an 8-byte write straddling the rodata/data boundary. -/
theorem claim_c6_access_in_one_region_witness :
    (∃ e, validateMemoryAccess 0 0x001FFFFC 8 true = .error e)
    ∧ (writeMemory [] 0 0x001FFFFC 7 8 false).2 = []
    ∧ (writeMemory [] 0 0x001FFFFC 7 8 true).2 = [] :=
  claim_c6_access_in_one_region 0 0x001FFFFC 8 true [] 7
    (by decide) (by decide)

end Arm64
